import Mathlib

/-!
Shallow embedding of the revolve2 mujoco simulator loop
(`_simulate_scene.py`) together with the lifecycle callback enum
(`_simulator.py`), the record settings (`_record_settings.py`) and the
relevant parts of the custom viewer backend
(`_custom_mujoco_viewer.py`).

Simulated time, cadence steps and phase anchors are modelled as exact
rationals; Python `math.floor` is `Int.floor` and Python `int(...)` is
truncation toward zero.  Lifecycle callbacks have no effect on the
state we track, so they are not part of the state.  The external
viewer, the offscreen camera buffer and the window framebuffer are
oracles supplied in the configuration: `closed_at k` says whether the
viewer render call of loop iteration `k` reports the closed status,
and the two image oracles give the pixel buffers as a function of
simulated time.
-/

namespace Revolve2

/-- The `RecordSettings` dataclass (`_record_settings.py`). -/
structure RecordSettings where
  video_directory : String
  overwrite : Bool := false
  fps : ℕ := 24
  width : Option ℕ := none
  height : Option ℕ := none
  camera_id : Option ℤ := none
  camera_type : Option String := none

/-- The `Callback` enum (`_simulator.py`). -/
inductive Callback
  | START
  | RENDER_START
  | PRE_STEP
  | PRE_CONTROL
  | RENDER
  | POST_CONTROL
  | POST_STEP
  | RENDER_END
  | END
  deriving DecidableEq

/-- The members of the `Callback` enum, in source order. -/
def Callback.members : List Callback :=
  [.START, .RENDER_START, .PRE_STEP, .PRE_CONTROL, .RENDER,
   .POST_CONTROL, .POST_STEP, .RENDER_END, .END]

/-- The names of the members of the `Callback` enum, in source order. -/
def Callback.memberNames : List String :=
  ["START", "RENDER_START", "PRE_STEP", "PRE_CONTROL", "RENDER",
   "POST_CONTROL", "POST_STEP", "RENDER_END", "END"]

/-- Python attribute access `Callback.<s>` on the enum class: `some`
member for a member name, `none` (an `AttributeError`) otherwise. -/
def Callback.attr (s : String) : Option Callback :=
  match s with
  | "START" => some .START
  | "RENDER_START" => some .RENDER_START
  | "PRE_STEP" => some .PRE_STEP
  | "PRE_CONTROL" => some .PRE_CONTROL
  | "RENDER" => some .RENDER
  | "POST_CONTROL" => some .POST_CONTROL
  | "POST_STEP" => some .POST_STEP
  | "RENDER_END" => some .RENDER_END
  | "END" => some .END
  | _ => none

/-- Python exceptions that the modelled code can raise. -/
inductive PyError
  | valueError (msg : String)
  | typeError
  | keyError
  | attributeError
  | zeroDivisionError
  deriving DecidableEq

/-- The mujoco camera type constants used by `_simulate_scene.py`. -/
inductive MjtCamera
  | free
  | tracking
  | fixed
  | user
  deriving DecidableEq

/-- The `_MujocoViewerBackend.update` routine of
`_custom_mujoco_viewer.py`, reduced to its interaction with the
callback registry: it evaluates `callbacks[Callback.PRE_RENDER]`, does
the scene update and render, then evaluates
`callbacks[Callback.POST_RENDER]`.  The pixel work has no effect on
the modelled state.  An attribute lookup that fails raises
`AttributeError`. -/
def backend_update (callbacks : Callback → List Unit) : Except PyError Unit :=
  match Callback.attr ("PRE_RENDER") with
  | none => .error .attributeError
  | some pre =>
    let _ := callbacks pre
    match Callback.attr ("POST_RENDER") with
    | none => .error .attributeError
    | some post =>
      let _ := callbacks post
      .ok ()

/-- The camera id chosen for the offscreen recording camera:
`1 if (cid := record_settings.camera_id) is None else cid`. -/
def record_camera_id (rs : RecordSettings) : ℤ :=
  match rs.camera_id with
  | none => 1
  | some cid => cid

/-- The camera type chosen for the offscreen recording camera: a
string lookup in `dict(free=..., tracking=..., fixed=..., user=...)`
on `record_settings.camera_type.lower()` when the field is set, and
`mjCAMERA_FREE` when it is `None`.  A string outside the dict raises
`KeyError`. -/
def record_camera_type (rs : RecordSettings) : Except PyError MjtCamera :=
  match rs.camera_type with
  | none => .ok .free
  | some s =>
    match s.toLower with
    | "free" => .ok .free
    | "tracking" => .ok .tracking
    | "fixed" => .ok .fixed
    | "user" => .ok .user
    | _ => .error .keyError

/-- The offscreen recording camera (`camera_viewers[-1]` setup block
of `_simulate_scene.py`): id and camera type. -/
def record_camera (rs : RecordSettings) : Except PyError (ℤ × MjtCamera) :=
  match record_camera_type rs with
  | .error e => .error e
  | .ok t => .ok (record_camera_id rs, t)

/-- A pixel image: rows of pixels, each pixel a list of channel values. -/
abbrev Image := List (List (List ℕ))

/-- The image transform applied before `video.write`:
`np.flipud(img)[:, :, ::-1]`, i.e. reverse the row order and reverse
the channel order of every pixel. -/
def flipud_reverse_channels (img : Image) : Image :=
  img.reverse.map (fun row => row.map (fun px => px.reverse))

/-- Python `int(q)` on a rational: truncation toward zero. -/
def truncQ (q : ℚ) : ℤ := q.num.tdiv q.den

/-- One frame appended to the video stream: whether it was read from
the offscreen recording camera buffer (as opposed to the on-screen
framebuffer) and its pixel data as written. -/
structure Frame where
  from_offscreen_camera : Bool
  image : Image
  deriving DecidableEq

/-- The configuration of one `simulate_scene` run.  Fields follow the
parameters of `simulate_scene`; `viewer_can_record` is the
`can_record` property of the active viewer type, `viewer_name` its
class name, `closed_at` tells whether the viewer render call of a
given loop iteration reports the closed status, and the two image
oracles stand for the offscreen camera buffer and the window
framebuffer read at a given simulated time. -/
structure SimConfig where
  headless : Bool
  record_settings : Option RecordSettings
  control_step : Option ℚ
  sample_step : Option ℚ
  simulation_time : Option ℚ
  simulation_timestep : ℚ
  viewer_can_record : Bool
  viewer_name : String
  closed_at : ℕ → Bool
  camera_image : ℚ → Image
  framebuffer_image : ℚ → Image

/-- `offscreen_render = (headless and record_settings is not None)`. -/
def SimConfig.offscreen_render (cfg : SimConfig) : Bool :=
  cfg.headless && cfg.record_settings.isSome

/-- `video_step = 1 / record_settings.fps` (zero when recording is off;
the zero-fps `ZeroDivisionError` is raised in `setup`). -/
def SimConfig.video_step (cfg : SimConfig) : ℚ :=
  match cfg.record_settings with
  | some rs => 1 / (rs.fps : ℚ)
  | none => 0

/-- The observable state of one run: the simulated clock, the three
phase anchors, the timestamps at which `SimulationState` snapshots
were appended to `simulation_states`, the timestamps of control
dispatches, the written video frames, the number of `mj_step` calls,
resource bookkeeping for the viewer window and the video writer, the
offscreen recording camera if one was set up, a pending Python
exception, and whether the loop was left through `break`. -/
structure SimState where
  time : ℚ
  last_control_time : ℚ
  last_sample_time : ℚ
  last_video_time : ℚ
  sample_times : List ℚ
  control_times : List ℚ
  frames : List Frame
  steps : ℕ
  viewer_opened : Bool
  viewer_closes : ℕ
  video_opened : Bool
  video_releases : ℕ
  rec_camera : Option (ℤ × MjtCamera)
  error : Option PyError
  broke : Bool

/-- The state before any of `simulate_scene` runs. -/
def initState : SimState where
  time := 0
  last_control_time := 0
  last_sample_time := 0
  last_video_time := 0
  sample_times := []
  control_times := []
  frames := []
  steps := 0
  viewer_opened := false
  viewer_closes := 0
  video_opened := false
  video_releases := 0
  rec_camera := none
  error := none
  broke := false

/-- The part of `simulate_scene` before the initial sample: viewer
creation in windowed mode, the offscreen recording camera setup, the
`can_record` check (raising `ValueError` naming the viewer type), the
`video_step` division and the video writer creation. -/
def setup (cfg : SimConfig) : SimState :=
  let st0 := { initState with viewer_opened := !cfg.headless }
  let st1 :=
    if cfg.offscreen_render then
      match cfg.record_settings with
      | some rs =>
        match record_camera rs with
        | .ok cam => { st0 with rec_camera := some cam }
        | .error e => { st0 with error := some e }
      | none => st0
    else st0
  if st1.error.isSome then st1
  else
    match cfg.record_settings with
    | some rs =>
      if !cfg.offscreen_render && !cfg.viewer_can_record then
        { st1 with error := some (.valueError
            ("Selected Viewer " ++ cfg.viewer_name
              ++ " has no functionality to record.")) }
      else if rs.fps = 0 then
        { st1 with error := some .zeroDivisionError }
      else
        { st1 with video_opened := true }
    | none => st1

/-- The initial sample and the initial control dispatch taken after
`mj_forward`, before the loop, both at `data.time = 0`. -/
def initial_sample_control (cfg : SimConfig) (st : SimState) : SimState :=
  let st1 :=
    match cfg.sample_step with
    | some _ => { st with sample_times := st.sample_times ++ [st.time] }
    | none => st
  match cfg.control_step with
  | some _ => { st1 with control_times := st1.control_times ++ [st1.time] }
  | none => st1

/-- The in-loop control dispatch: Python evaluates
`time >= last_control_time + control_step` with no `None` guard, and
on firing sets the anchor with `math.floor`. -/
def controlPhase (c : ℚ) (st : SimState) : SimState :=
  if st.last_control_time + c ≤ st.time then
    { st with
      last_control_time := (⌊st.time / c⌋ : ℚ) * c
      control_times := st.control_times ++ [st.time] }
  else st

/-- The in-loop state sample: guarded by `sample_step is not None`, and
on firing sets the anchor with `int(...)` truncation. -/
def samplePhase (sample_step : Option ℚ) (st : SimState) : SimState :=
  match sample_step with
  | some s =>
    if st.last_sample_time + s ≤ st.time then
      { st with
        last_sample_time := ((truncQ (st.time / s) : ℤ) : ℚ) * s
        sample_times := st.sample_times ++ [st.time] }
    else st
  | none => st

/-- Whether the render call of this iteration happens and reports the
closed status (`_status == -1`), triggering `break`.  The render
condition is
`not headless or (record_settings is not None and time >= last_video_time + video_step) and not offscreen_render`;
`t` is the pre-step loop time and `k` the iteration index. -/
def renderClosed (cfg : SimConfig) (t : ℚ) (k : ℕ) (st : SimState) : Bool :=
  (!cfg.headless
    || (cfg.record_settings.isSome
        && decide (st.last_video_time + cfg.video_step ≤ t)
        && !cfg.offscreen_render))
  && cfg.closed_at k

/-- The in-loop video frame capture: at a video cadence boundary the
frame is read from the offscreen recording camera buffer in
offscreen-record mode and from the on-screen framebuffer otherwise,
transformed by `np.flipud(img)[:, :, ::-1]`, and written; the anchor
is set with `int(...)` truncation.  `t` is the pre-step loop time;
the images were recomputed after `mj_step`, hence are read at the
post-step time `st.time`. -/
def videoPhase (cfg : SimConfig) (t : ℚ) (st : SimState) : SimState :=
  match cfg.record_settings with
  | some _ =>
    if st.last_video_time + cfg.video_step ≤ t then
      { st with
        last_video_time := ((truncQ (t / cfg.video_step) : ℤ) : ℚ) * cfg.video_step
        frames := st.frames ++
          [{ from_offscreen_camera := cfg.offscreen_render
             image := flipud_reverse_channels
               (if cfg.offscreen_render then cfg.camera_image st.time
                else cfg.framebuffer_image st.time) }] }
    else st
  | none => st

/-- One iteration of the main loop of `simulate_scene`: PRE_STEP
callbacks, the unguarded control cadence check (a `TypeError` when
`control_step` is `None`), the sample cadence check, `mj_step` and the
camera image refresh, the render call with its closed check, the video
frame capture, POST_STEP callbacks. -/
def loopBody (cfg : SimConfig) (st : SimState) : SimState :=
  match cfg.control_step with
  | none => { st with error := some .typeError }
  | some c =>
    let t := st.time
    let k := st.steps
    let st1 := controlPhase c st
    let st2 := samplePhase cfg.sample_step st1
    let st3 := { st2 with time := t + cfg.simulation_timestep, steps := k + 1 }
    if renderClosed cfg t k st3 then { st3 with broke := true }
    else videoPhase cfg t st3

/-- The loop guard `(time := data.time) <= simulation_time`, with
`float("inf")` when `simulation_time` is `None`. -/
def loopCond (cfg : SimConfig) (st : SimState) : Bool :=
  match cfg.simulation_time with
  | none => true
  | some tEnd => decide (st.time ≤ tEnd)

/-- The main loop, fuel-indexed.  A raised exception or a `break`
leaves the loop immediately. -/
def runLoop (cfg : SimConfig) : ℕ → SimState → SimState
  | 0, st => st
  | fuel + 1, st =>
    if loopCond cfg st then
      let st1 := loopBody cfg st
      if st1.error.isSome || st1.broke then st1
      else runLoop cfg fuel st1
    else st

/-- Enough loop iterations for a finite `simulation_time`: the loop
processes the tick times `0, h, 2h, ...` while they are at most
`simulation_time`. -/
def SimConfig.fuel (cfg : SimConfig) : ℕ :=
  match cfg.simulation_time with
  | some tEnd => (⌊tEnd / cfg.simulation_timestep⌋).toNat + 1
  | none => 0

/-- The part of `simulate_scene` after the loop: END and RENDER_END
callbacks, the conditional `viewer.close_viewer()`, the conditional
`video.release()`, and the final unconditional sample. -/
def teardown (cfg : SimConfig) (st : SimState) : SimState :=
  let st1 :=
    if (!cfg.headless || cfg.record_settings.isSome) && !cfg.offscreen_render then
      { st with viewer_closes := st.viewer_closes + 1 }
    else st
  let st2 :=
    match cfg.record_settings with
    | some _ => { st1 with video_releases := st1.video_releases + 1 }
    | none => st1
  match cfg.sample_step with
  | some _ => { st2 with sample_times := st2.sample_times ++ [st2.time] }
  | none => st2

/-- The whole of `simulate_scene`: setup, initial sample and control,
the main loop, and teardown.  A Python exception propagates: it skips
everything after the point where it is raised. -/
def simulate_scene (cfg : SimConfig) : SimState :=
  let st := setup cfg
  if st.error.isSome then st
  else
    let st1 := initial_sample_control cfg st
    let st2 := runLoop cfg cfg.fuel st1
    if st2.error.isSome then st2 else teardown cfg st2

/-! ### Arithmetic helpers -/

/-- Truncation toward zero agrees with the floor on nonnegative
rationals. -/
theorem truncQ_natCast (n : ℕ) : truncQ (n : ℚ) = n := by
  simp [truncQ, Rat.num_natCast, Rat.den_natCast, Int.tdiv]

/-- Characterization of a cadence window firing: with the phase anchor
at `((k - 1) / n) * step` after `k` ticks of size `h` with
`step = n * h`, the boundary condition holds at tick `k` exactly when
`k` is a positive multiple of `n`. -/
theorem window_fire_iff (n k : ℕ) (hn : 0 < n) :
    ((k - 1) / n + 1) * n ≤ k ↔ 1 ≤ k ∧ n ∣ k := by
  rcases k with _ | m
  · constructor
    · intro hle
      simp at hle
      omega
    · intro h
      omega
  · simp only [Nat.succ_sub_one]
    have hdm := Nat.div_add_mod m n
    have hmlt : m % n < n := Nat.mod_lt _ hn
    constructor
    · intro hle
      have hle2 : n * (m / n) + n ≤ m + 1 := by
        calc n * (m / n) + n = (m / n + 1) * n := by ring
        _ ≤ m + 1 := hle
      refine ⟨by omega, ⟨m / n + 1, ?_⟩⟩
      have h3 : n * (m / n + 1) = n * (m / n) + n := by ring
      omega
    · rintro ⟨-, j, hj⟩
      have hj1 : 1 ≤ j := by
        by_contra hc
        push_neg at hc
        interval_cases j
        omega
      have hj2 : n * j = n * (j - 1) + n := by
        have hjj : j = (j - 1) + 1 := by omega
        calc n * j = n * ((j - 1) + 1) := by rw [← hjj]
        _ = n * (j - 1) + n := by ring
      have hdiv : m / n = j - 1 := by
        have hcomm : n * (j - 1) = (j - 1) * n := Nat.mul_comm _ _
        have hm2 : m = (n - 1) + (j - 1) * n := by omega
        rw [hm2, Nat.add_mul_div_right _ _ hn, Nat.div_eq_of_lt (by omega)]
        omega
      have hgoal : (m / n + 1) * n = n * j := by
        rw [hdiv]
        have hjj : (j - 1) + 1 = j := by omega
        calc (j - 1 + 1) * n = j * n := by rw [hjj]
        _ = n * j := Nat.mul_comm _ _
      omega

/-- The cadence boundary condition over the rationals, reduced to the
natural-number characterization. -/
theorem anchor_fire_iff (h : ℚ) (hh : 0 < h) (n k : ℕ) (hn : 0 < n) :
    ((((k - 1) / n : ℕ) : ℚ) * ((n : ℚ) * h) + (n : ℚ) * h ≤ (k : ℚ) * h)
      ↔ (1 ≤ k ∧ n ∣ k) := by
  rw [← window_fire_iff n k hn]
  have hrw : ((((k - 1) / n : ℕ) : ℚ) * ((n : ℚ) * h) + (n : ℚ) * h)
      = ((((k - 1) / n + 1 : ℕ) : ℚ) * (n : ℚ)) * h := by
    push_cast
    ring
  rw [hrw, mul_le_mul_right hh]
  rw [show ((((k - 1) / n + 1 : ℕ) : ℚ) * (n : ℚ)) = ((((k - 1) / n + 1) * n : ℕ) : ℚ) by push_cast; ring]
  exact_mod_cast Nat.cast_le

/-- Value of the floored anchor when the window fires at tick `k`, a
multiple of `n`. -/
theorem floor_tick_div (h : ℚ) (hh : h ≠ 0) (n k : ℕ) (hn : 0 < n) (hd : n ∣ k) :
    ⌊((k : ℚ) * h) / ((n : ℚ) * h)⌋ = (k / n : ℕ) := by
  obtain ⟨j, rfl⟩ := hd
  have hn0 : (n : ℚ) ≠ 0 := by exact_mod_cast hn.ne'
  have hrw : (((n * j : ℕ) : ℚ) * h) / ((n : ℚ) * h) = (j : ℚ) := by
    push_cast
    field_simp
    ring
  rw [hrw, Nat.mul_div_cancel_left _ hn]
  exact Int.floor_natCast j

/-- Value of the truncated anchor when the window fires at tick `k`, a
multiple of `n`. -/
theorem trunc_tick_div (h : ℚ) (hh : h ≠ 0) (n k : ℕ) (hn : 0 < n) (hd : n ∣ k) :
    truncQ (((k : ℚ) * h) / ((n : ℚ) * h)) = (k / n : ℕ) := by
  obtain ⟨j, rfl⟩ := hd
  have hrw : (((n * j : ℕ) : ℚ) * h) / ((n : ℚ) * h) = (j : ℚ) := by
    have hn0 : (n : ℚ) ≠ 0 := by exact_mod_cast hn.ne'
    push_cast
    field_simp
    ring
  rw [hrw, Nat.mul_div_cancel_left _ hn, truncQ_natCast]

/-- The window index after one more tick: it increments exactly on
positive multiples of `n`. -/
theorem window_index_succ (n k : ℕ) :
    (k + 1 - 1) / n = (k - 1) / n + (if 1 ≤ k ∧ n ∣ k then 1 else 0) := by
  rcases k with _ | m
  · have hnot : ¬ (1 ≤ 0 ∧ n ∣ 0) := by omega
    simp [hnot]
  · simp only [Nat.add_sub_cancel, Nat.succ_sub_one]
    rw [Nat.succ_div]
    congr 1
    by_cases hd : n ∣ m + 1
    · rw [if_pos hd, if_pos ⟨by omega, hd⟩]
    · rw [if_neg hd, if_neg (fun hc => hd hc.2)]

/-- The tick `k * h` is within the time bound `tEnd` exactly when
`k ≤ ⌊tEnd / h⌋`. -/
theorem tick_le_iff (h tEnd : ℚ) (hh : 0 < h) (hT : 0 ≤ tEnd) (k : ℕ) :
    ((k : ℚ) * h ≤ tEnd) ↔ k ≤ (⌊tEnd / h⌋).toNat := by
  have hfl : (0 : ℤ) ≤ ⌊tEnd / h⌋ := by
    apply Int.floor_nonneg.2
    positivity
  rw [← Int.toNat_of_nonneg hfl, Int.toNat_of_nonneg hfl]
  constructor
  · intro hle
    have h1 : (k : ℚ) ≤ tEnd / h := by
      rw [le_div_iff₀ hh]
      exact hle
    have h2 : (k : ℤ) ≤ ⌊tEnd / h⌋ := Int.le_floor.2 (by exact_mod_cast h1)
    omega
  · intro hle
    have h2 : (k : ℤ) ≤ ⌊tEnd / h⌋ := by omega
    have h1 : (k : ℚ) ≤ tEnd / h := le_trans (by exact_mod_cast Int.le_floor.1 h2) (le_refl _)
    rw [le_div_iff₀ hh] at h1
    exact h1

/-! ### Loop unfolding and induction principles -/

theorem runLoop_zero (cfg : SimConfig) (st : SimState) : runLoop cfg 0 st = st := rfl

theorem runLoop_succ (cfg : SimConfig) (f : ℕ) (st : SimState) :
    runLoop cfg (f + 1) st =
      if loopCond cfg st then
        (if (loopBody cfg st).error.isSome || (loopBody cfg st).broke then loopBody cfg st
         else runLoop cfg f (loopBody cfg st))
      else st := rfl

/-- Fuel-indexed loop induction for runs that neither raise nor break:
an invariant preserved by the body up to the last in-bound tick `M`
holds of the loop result at index `M + 1`. -/
theorem runLoop_inv (cfg : SimConfig) (Inv : ℕ → SimState → Prop) (M : ℕ)
    (hcond : ∀ k st, Inv k st → loopCond cfg st = decide (k ≤ M))
    (hstep : ∀ k st, k ≤ M → Inv k st →
      Inv (k + 1) (loopBody cfg st) ∧ (loopBody cfg st).error = none ∧
        (loopBody cfg st).broke = false) :
    ∀ fuel k st, Inv k st → fuel + k = M + 1 → Inv (M + 1) (runLoop cfg fuel st) := by
  intro fuel
  induction fuel with
  | zero =>
    intro k st hInv hfk
    have hk : k = M + 1 := by omega
    subst hk
    rw [runLoop_zero]
    exact hInv
  | succ f ih =>
    intro k st hInv hfk
    have hkM : k ≤ M := by omega
    obtain ⟨hInv1, herr, hbr⟩ := hstep k st hkM hInv
    have hcnd : loopCond cfg st = true := by
      rw [hcond k st hInv]
      simp [hkM]
    rw [runLoop_succ, hcnd, if_pos rfl, herr, hbr]
    simp only [Option.isSome_none, Bool.or_false, Bool.false_eq_true, if_false]
    exact ih (k + 1) (loopBody cfg st) hInv1 (by omega)

/-- Fuel-indexed loop induction for runs that `break` at iteration
`N`: the loop result is the body result of iteration `N`. -/
theorem runLoop_break (cfg : SimConfig) (Inv : ℕ → SimState → Prop) (N M : ℕ)
    (hNM : N ≤ M)
    (hcond : ∀ k st, Inv k st → loopCond cfg st = decide (k ≤ M))
    (hstep : ∀ k st, k < N → Inv k st →
      Inv (k + 1) (loopBody cfg st) ∧ (loopBody cfg st).error = none ∧
        (loopBody cfg st).broke = false)
    (P : SimState → Prop)
    (hbrk : ∀ st, Inv N st → P (loopBody cfg st) ∧ (loopBody cfg st).error = none ∧
        (loopBody cfg st).broke = true) :
    ∀ fuel k st, Inv k st → k ≤ N → fuel + k = M + 1 → P (runLoop cfg fuel st) := by
  intro fuel
  induction fuel with
  | zero =>
    intro k st _ hkN hfk
    omega
  | succ f ih =>
    intro k st hInv hkN hfk
    have hcnd : loopCond cfg st = true := by
      rw [hcond k st hInv]
      simp only [decide_eq_true_eq]
      omega
    rcases Nat.lt_or_ge k N with hlt | hge
    · obtain ⟨hInv1, herr, hbr⟩ := hstep k st hlt hInv
      rw [runLoop_succ, hcnd, if_pos rfl, herr, hbr]
      simp only [Option.isSome_none, Bool.or_false, Bool.false_eq_true, if_false]
      exact ih (k + 1) (loopBody cfg st) hInv1 (by omega) (by omega)
    · have hkN2 : k = N := by omega
      subst hkN2
      obtain ⟨hP, herr, hbr⟩ := hbrk st hInv
      rw [runLoop_succ, hcnd, if_pos rfl, herr, hbr]
      simp only [Option.isSome_none, Bool.false_or, if_pos rfl]
      exact hP

/-! ### Phase characterizations -/

/-- One loop iteration with `control_step` set and a render call that
does not report the closed status. -/
theorem loopBody_clean (cfg : SimConfig) (c : ℚ) (st : SimState)
    (hcs : cfg.control_step = some c) (hncl : cfg.closed_at st.steps = false) :
    loopBody cfg st =
      videoPhase cfg st.time
        { samplePhase cfg.sample_step (controlPhase c st) with
          time := st.time + cfg.simulation_timestep
          steps := st.steps + 1 } := by
  simp [loopBody, hcs, renderClosed, hncl]

/-- `controlPhase` changes only the control anchor and the control
dispatch list. -/
theorem controlPhase_keeps (c : ℚ) (st : SimState) :
    ∃ lc ct, controlPhase c st =
      { st with last_control_time := lc, control_times := ct } := by
  unfold controlPhase
  by_cases hcond : st.last_control_time + c ≤ st.time
  · exact ⟨_, _, if_pos hcond⟩
  · exact ⟨st.last_control_time, st.control_times, by rw [if_neg hcond]⟩

/-- `samplePhase` changes only the sample anchor and the sample list. -/
theorem samplePhase_keeps (o : Option ℚ) (st : SimState) :
    ∃ ls ts, samplePhase o st =
      { st with last_sample_time := ls, sample_times := ts } := by
  rcases o with _ | s
  · exact ⟨st.last_sample_time, st.sample_times, rfl⟩
  · simp only [samplePhase]
    by_cases hcond : st.last_sample_time + s ≤ st.time
    · exact ⟨_, _, if_pos hcond⟩
    · exact ⟨st.last_sample_time, st.sample_times, by rw [if_neg hcond]⟩

/-- `videoPhase` changes only the video anchor and the frame list. -/
theorem videoPhase_keeps (cfg : SimConfig) (t : ℚ) (st : SimState) :
    ∃ lv fr, videoPhase cfg t st =
      { st with last_video_time := lv, frames := fr } := by
  rcases hrs : cfg.record_settings with _ | rs
  · exact ⟨st.last_video_time, st.frames, by simp only [videoPhase, hrs]⟩
  · simp only [videoPhase, hrs]
    by_cases hcond : st.last_video_time + cfg.video_step ≤ t
    · exact ⟨_, _, if_pos hcond⟩
    · exact ⟨st.last_video_time, st.frames, by rw [if_neg hcond]⟩

/-! Projection lemmas: each phase leaves every field it does not own
unchanged. -/

theorem controlPhase_time (c : ℚ) (st : SimState) :
    (controlPhase c st).time = st.time := by
  obtain ⟨lc, ct, heq⟩ := controlPhase_keeps c st
  rw [heq]

theorem controlPhase_steps (c : ℚ) (st : SimState) :
    (controlPhase c st).steps = st.steps := by
  obtain ⟨lc, ct, heq⟩ := controlPhase_keeps c st
  rw [heq]

theorem controlPhase_error (c : ℚ) (st : SimState) :
    (controlPhase c st).error = st.error := by
  obtain ⟨lc, ct, heq⟩ := controlPhase_keeps c st
  rw [heq]

theorem controlPhase_broke (c : ℚ) (st : SimState) :
    (controlPhase c st).broke = st.broke := by
  obtain ⟨lc, ct, heq⟩ := controlPhase_keeps c st
  rw [heq]

theorem controlPhase_last_sample_time (c : ℚ) (st : SimState) :
    (controlPhase c st).last_sample_time = st.last_sample_time := by
  obtain ⟨lc, ct, heq⟩ := controlPhase_keeps c st
  rw [heq]

theorem controlPhase_sample_times (c : ℚ) (st : SimState) :
    (controlPhase c st).sample_times = st.sample_times := by
  obtain ⟨lc, ct, heq⟩ := controlPhase_keeps c st
  rw [heq]

theorem controlPhase_last_video_time (c : ℚ) (st : SimState) :
    (controlPhase c st).last_video_time = st.last_video_time := by
  obtain ⟨lc, ct, heq⟩ := controlPhase_keeps c st
  rw [heq]

theorem controlPhase_frames (c : ℚ) (st : SimState) :
    (controlPhase c st).frames = st.frames := by
  obtain ⟨lc, ct, heq⟩ := controlPhase_keeps c st
  rw [heq]

theorem controlPhase_viewer_opened (c : ℚ) (st : SimState) :
    (controlPhase c st).viewer_opened = st.viewer_opened := by
  obtain ⟨lc, ct, heq⟩ := controlPhase_keeps c st
  rw [heq]

theorem controlPhase_viewer_closes (c : ℚ) (st : SimState) :
    (controlPhase c st).viewer_closes = st.viewer_closes := by
  obtain ⟨lc, ct, heq⟩ := controlPhase_keeps c st
  rw [heq]

theorem controlPhase_video_opened (c : ℚ) (st : SimState) :
    (controlPhase c st).video_opened = st.video_opened := by
  obtain ⟨lc, ct, heq⟩ := controlPhase_keeps c st
  rw [heq]

theorem controlPhase_video_releases (c : ℚ) (st : SimState) :
    (controlPhase c st).video_releases = st.video_releases := by
  obtain ⟨lc, ct, heq⟩ := controlPhase_keeps c st
  rw [heq]

theorem controlPhase_rec_camera (c : ℚ) (st : SimState) :
    (controlPhase c st).rec_camera = st.rec_camera := by
  obtain ⟨lc, ct, heq⟩ := controlPhase_keeps c st
  rw [heq]

theorem samplePhase_time (o : Option ℚ) (st : SimState) :
    (samplePhase o st).time = st.time := by
  obtain ⟨ls, ts, heq⟩ := samplePhase_keeps o st
  rw [heq]

theorem samplePhase_steps (o : Option ℚ) (st : SimState) :
    (samplePhase o st).steps = st.steps := by
  obtain ⟨ls, ts, heq⟩ := samplePhase_keeps o st
  rw [heq]

theorem samplePhase_error (o : Option ℚ) (st : SimState) :
    (samplePhase o st).error = st.error := by
  obtain ⟨ls, ts, heq⟩ := samplePhase_keeps o st
  rw [heq]

theorem samplePhase_broke (o : Option ℚ) (st : SimState) :
    (samplePhase o st).broke = st.broke := by
  obtain ⟨ls, ts, heq⟩ := samplePhase_keeps o st
  rw [heq]

theorem samplePhase_last_control_time (o : Option ℚ) (st : SimState) :
    (samplePhase o st).last_control_time = st.last_control_time := by
  obtain ⟨ls, ts, heq⟩ := samplePhase_keeps o st
  rw [heq]

theorem samplePhase_control_times (o : Option ℚ) (st : SimState) :
    (samplePhase o st).control_times = st.control_times := by
  obtain ⟨ls, ts, heq⟩ := samplePhase_keeps o st
  rw [heq]

theorem samplePhase_last_video_time (o : Option ℚ) (st : SimState) :
    (samplePhase o st).last_video_time = st.last_video_time := by
  obtain ⟨ls, ts, heq⟩ := samplePhase_keeps o st
  rw [heq]

theorem samplePhase_frames (o : Option ℚ) (st : SimState) :
    (samplePhase o st).frames = st.frames := by
  obtain ⟨ls, ts, heq⟩ := samplePhase_keeps o st
  rw [heq]

theorem samplePhase_viewer_opened (o : Option ℚ) (st : SimState) :
    (samplePhase o st).viewer_opened = st.viewer_opened := by
  obtain ⟨ls, ts, heq⟩ := samplePhase_keeps o st
  rw [heq]

theorem samplePhase_viewer_closes (o : Option ℚ) (st : SimState) :
    (samplePhase o st).viewer_closes = st.viewer_closes := by
  obtain ⟨ls, ts, heq⟩ := samplePhase_keeps o st
  rw [heq]

theorem samplePhase_video_opened (o : Option ℚ) (st : SimState) :
    (samplePhase o st).video_opened = st.video_opened := by
  obtain ⟨ls, ts, heq⟩ := samplePhase_keeps o st
  rw [heq]

theorem samplePhase_video_releases (o : Option ℚ) (st : SimState) :
    (samplePhase o st).video_releases = st.video_releases := by
  obtain ⟨ls, ts, heq⟩ := samplePhase_keeps o st
  rw [heq]

theorem samplePhase_rec_camera (o : Option ℚ) (st : SimState) :
    (samplePhase o st).rec_camera = st.rec_camera := by
  obtain ⟨ls, ts, heq⟩ := samplePhase_keeps o st
  rw [heq]

theorem videoPhase_time (cfg : SimConfig) (t : ℚ) (st : SimState) :
    (videoPhase cfg t st).time = st.time := by
  obtain ⟨lv, fr, heq⟩ := videoPhase_keeps cfg t st
  rw [heq]

theorem videoPhase_steps (cfg : SimConfig) (t : ℚ) (st : SimState) :
    (videoPhase cfg t st).steps = st.steps := by
  obtain ⟨lv, fr, heq⟩ := videoPhase_keeps cfg t st
  rw [heq]

theorem videoPhase_error (cfg : SimConfig) (t : ℚ) (st : SimState) :
    (videoPhase cfg t st).error = st.error := by
  obtain ⟨lv, fr, heq⟩ := videoPhase_keeps cfg t st
  rw [heq]

theorem videoPhase_broke (cfg : SimConfig) (t : ℚ) (st : SimState) :
    (videoPhase cfg t st).broke = st.broke := by
  obtain ⟨lv, fr, heq⟩ := videoPhase_keeps cfg t st
  rw [heq]

theorem videoPhase_last_control_time (cfg : SimConfig) (t : ℚ) (st : SimState) :
    (videoPhase cfg t st).last_control_time = st.last_control_time := by
  obtain ⟨lv, fr, heq⟩ := videoPhase_keeps cfg t st
  rw [heq]

theorem videoPhase_control_times (cfg : SimConfig) (t : ℚ) (st : SimState) :
    (videoPhase cfg t st).control_times = st.control_times := by
  obtain ⟨lv, fr, heq⟩ := videoPhase_keeps cfg t st
  rw [heq]

theorem videoPhase_last_sample_time (cfg : SimConfig) (t : ℚ) (st : SimState) :
    (videoPhase cfg t st).last_sample_time = st.last_sample_time := by
  obtain ⟨lv, fr, heq⟩ := videoPhase_keeps cfg t st
  rw [heq]

theorem videoPhase_sample_times (cfg : SimConfig) (t : ℚ) (st : SimState) :
    (videoPhase cfg t st).sample_times = st.sample_times := by
  obtain ⟨lv, fr, heq⟩ := videoPhase_keeps cfg t st
  rw [heq]

theorem videoPhase_viewer_opened (cfg : SimConfig) (t : ℚ) (st : SimState) :
    (videoPhase cfg t st).viewer_opened = st.viewer_opened := by
  obtain ⟨lv, fr, heq⟩ := videoPhase_keeps cfg t st
  rw [heq]

theorem videoPhase_viewer_closes (cfg : SimConfig) (t : ℚ) (st : SimState) :
    (videoPhase cfg t st).viewer_closes = st.viewer_closes := by
  obtain ⟨lv, fr, heq⟩ := videoPhase_keeps cfg t st
  rw [heq]

theorem videoPhase_video_opened (cfg : SimConfig) (t : ℚ) (st : SimState) :
    (videoPhase cfg t st).video_opened = st.video_opened := by
  obtain ⟨lv, fr, heq⟩ := videoPhase_keeps cfg t st
  rw [heq]

theorem videoPhase_video_releases (cfg : SimConfig) (t : ℚ) (st : SimState) :
    (videoPhase cfg t st).video_releases = st.video_releases := by
  obtain ⟨lv, fr, heq⟩ := videoPhase_keeps cfg t st
  rw [heq]

theorem videoPhase_rec_camera (cfg : SimConfig) (t : ℚ) (st : SimState) :
    (videoPhase cfg t st).rec_camera = st.rec_camera := by
  obtain ⟨lv, fr, heq⟩ := videoPhase_keeps cfg t st
  rw [heq]

/-- Evaluation of `controlPhase` at tick `k` when the control step is
the `n`-fold timestep and the anchor sits at the current window
start. -/
theorem controlPhase_eval (c h : ℚ) (n k : ℕ) (st : SimState)
    (hh0 : 0 < h) (hn : 0 < n) (hc : c = (n : ℚ) * h)
    (ht : st.time = (k : ℚ) * h)
    (hlc : st.last_control_time = (((k - 1) / n : ℕ) : ℚ) * c) :
    controlPhase c st =
      if 1 ≤ k ∧ n ∣ k then
        { st with
          last_control_time := ((k / n : ℕ) : ℚ) * c
          control_times := st.control_times ++ [(k : ℚ) * h] }
      else st := by
  unfold controlPhase
  rw [ht, hlc, hc]
  by_cases hf : 1 ≤ k ∧ n ∣ k
  · rw [if_pos ((anchor_fire_iff h hh0 n k hn).2 hf), if_pos hf]
    have hfl : ((⌊(k : ℚ) * h / ((n : ℚ) * h)⌋ : ℤ) : ℚ) = ((k / n : ℕ) : ℚ) := by
      rw [floor_tick_div h (ne_of_gt hh0) n k hn hf.2]
      exact Int.cast_natCast _
    rw [hfl]
  · rw [if_neg (fun hcond => hf ((anchor_fire_iff h hh0 n k hn).1 hcond)), if_neg hf]

/-- Evaluation of `samplePhase` at tick `k` when the sample step is
the `n`-fold timestep and the anchor sits at the current window
start. -/
theorem samplePhase_eval (s h : ℚ) (n k : ℕ) (st : SimState)
    (hh0 : 0 < h) (hn : 0 < n) (hs : s = (n : ℚ) * h)
    (ht : st.time = (k : ℚ) * h)
    (hls : st.last_sample_time = (((k - 1) / n : ℕ) : ℚ) * s) :
    samplePhase (some s) st =
      if 1 ≤ k ∧ n ∣ k then
        { st with
          last_sample_time := ((k / n : ℕ) : ℚ) * s
          sample_times := st.sample_times ++ [(k : ℚ) * h] }
      else st := by
  simp only [samplePhase]
  rw [ht, hls, hs]
  by_cases hf : 1 ≤ k ∧ n ∣ k
  · rw [if_pos ((anchor_fire_iff h hh0 n k hn).2 hf), if_pos hf]
    have hfl : ((truncQ ((k : ℚ) * h / ((n : ℚ) * h)) : ℤ) : ℚ) = ((k / n : ℕ) : ℚ) := by
      rw [trunc_tick_div h (ne_of_gt hh0) n k hn hf.2]
      exact Int.cast_natCast _
    rw [hfl]
  · rw [if_neg (fun hcond => hf ((anchor_fire_iff h hh0 n k hn).1 hcond)), if_neg hf]

/-! ### Setup evaluation -/

/-- The configuration passes the pre-loop setup without raising: when
recording, a windowed run must have a recording-capable viewer type,
the fps must be nonzero, and in offscreen-record mode the camera type
selector must be valid. -/
def SetupOk (cfg : SimConfig) : Prop :=
  match cfg.record_settings with
  | none => True
  | some rs =>
      (cfg.headless = false → cfg.viewer_can_record = true)
      ∧ rs.fps ≠ 0
      ∧ (cfg.headless = true → ∃ cam, record_camera rs = .ok cam)

/-- Under `SetupOk`, `setup` opens the viewer in windowed mode, opens
the video writer when recording, possibly sets up the recording
camera, and raises nothing. -/
theorem setup_eval (cfg : SimConfig) (hok : SetupOk cfg) :
    ∃ rc, setup cfg =
      { initState with
        viewer_opened := !cfg.headless
        video_opened := cfg.record_settings.isSome
        rec_camera := rc } := by
  unfold SetupOk at hok
  rcases hrs : cfg.record_settings with _ | rs
  · refine ⟨none, ?_⟩
    simp [setup, SimConfig.offscreen_render, hrs, initState]
  · rw [hrs] at hok
    obtain ⟨hcr, hfps, hcam⟩ := hok
    rcases hhl : cfg.headless with _ | _
    · refine ⟨none, ?_⟩
      have hcr2 := hcr hhl
      simp [setup, SimConfig.offscreen_render, hrs, hhl, hcr2, hfps, initState]
    · obtain ⟨cam, hcam2⟩ := hcam hhl
      refine ⟨some cam, ?_⟩
      simp [setup, SimConfig.offscreen_render, hrs, hhl, hcam2, hfps, initState]

/-- The state at the head of the loop: viewer and writer bookkeeping
from `setup`, and the initial sample and control dispatch at time 0. -/
theorem pre_loop_eval (cfg : SimConfig) (c : ℚ) (hok : SetupOk cfg)
    (hcs : cfg.control_step = some c) :
    ∃ rc, (setup cfg).error = none ∧
      initial_sample_control cfg (setup cfg) =
        { initState with
          viewer_opened := !cfg.headless
          video_opened := cfg.record_settings.isSome
          rec_camera := rc
          sample_times := if cfg.sample_step.isSome then [0] else []
          control_times := [0] } := by
  obtain ⟨rc, hsetup⟩ := setup_eval cfg hok
  refine ⟨rc, ?_, ?_⟩
  · rw [hsetup]
    simp [initState]
  · rw [hsetup]
    rcases hss : cfg.sample_step with _ | s
    · simp [initial_sample_control, hss, hcs, initState]
    · simp [initial_sample_control, hss, hcs, initState]

/-! ### The control cadence invariant (control step = n · timestep) -/

/-- Loop invariant for the control cadence when
`control_step = n * simulation_timestep`: at the head of iteration
`k` the clock sits at tick `k`, the control anchor at the start of
window `(k - 1) / n`, and control has been dispatched exactly at the
window starts so far. -/
def ControlInv (c h : ℚ) (n k : ℕ) (st : SimState) : Prop :=
  st.time = (k : ℚ) * h
  ∧ st.steps = k
  ∧ st.error = none
  ∧ st.broke = false
  ∧ st.last_control_time = (((k - 1) / n : ℕ) : ℚ) * c
  ∧ st.control_times = List.map (fun j : ℕ => (j : ℚ) * c) (List.range ((k - 1) / n + 1))

/-- The loop body preserves `ControlInv`. -/
theorem ControlInv_step (cfg : SimConfig) (c h : ℚ) (n k : ℕ) (st : SimState)
    (hcs : cfg.control_step = some c) (hts : cfg.simulation_timestep = h)
    (hh0 : 0 < h) (hn : 0 < n) (hc : c = (n : ℚ) * h)
    (hcl : ∀ i, cfg.closed_at i = false)
    (hInv : ControlInv c h n k st) :
    ControlInv c h n (k + 1) (loopBody cfg st)
      ∧ (loopBody cfg st).error = none ∧ (loopBody cfg st).broke = false := by
  obtain ⟨ht, hstp, he, hb, hlc, hct⟩ := hInv
  rw [loopBody_clean cfg c st hcs (hcl st.steps)]
  rw [controlPhase_eval c h n k st hh0 hn hc ht hlc]
  have hidx := window_index_succ n k
  unfold ControlInv
  by_cases hf : 1 ≤ k ∧ n ∣ k
  · rw [if_pos hf]
    rw [if_pos hf] at hidx
    have hkn : k / n = (k - 1) / n + 1 := by simpa using hidx
    have hdivmul : ((k / n : ℕ) : ℚ) * c = (k : ℚ) * h := by
      obtain ⟨j, hj⟩ := hf.2
      rw [hc, hj, Nat.mul_div_cancel_left _ hn]
      push_cast
      ring
    refine ⟨⟨?_, ?_, ?_, ?_, ?_, ?_⟩, ?_, ?_⟩
    · rw [videoPhase_time]
      dsimp only
      rw [ht, hts]
      push_cast
      ring
    · rw [videoPhase_steps]
      dsimp only
      rw [hstp]
    · rw [videoPhase_error]
      dsimp only
      rw [samplePhase_error]
      dsimp only
      exact he
    · rw [videoPhase_broke]
      dsimp only
      rw [samplePhase_broke]
      dsimp only
      exact hb
    · rw [videoPhase_last_control_time]
      dsimp only
      rw [samplePhase_last_control_time]
      dsimp only
      rw [hidx, hkn]
    · rw [videoPhase_control_times]
      dsimp only
      rw [samplePhase_control_times]
      dsimp only
      have helem : ((k : ℚ)) * h = (((k - 1) / n + 1 : ℕ) : ℚ) * c := by
        rw [show ((k - 1) / n + 1) = k / n from hkn.symm, hdivmul]
      rw [hct, hidx, helem]
      simp [List.range_succ]
    · rw [videoPhase_error]
      dsimp only
      rw [samplePhase_error]
      dsimp only
      exact he
    · rw [videoPhase_broke]
      dsimp only
      rw [samplePhase_broke]
      dsimp only
      exact hb
  · rw [if_neg hf]
    rw [if_neg hf] at hidx
    have hkn : (k + 1 - 1) / n = (k - 1) / n := by simpa using hidx
    refine ⟨⟨?_, ?_, ?_, ?_, ?_, ?_⟩, ?_, ?_⟩
    · rw [videoPhase_time]
      dsimp only
      rw [ht, hts]
      push_cast
      ring
    · rw [videoPhase_steps]
      dsimp only
      rw [hstp]
    · rw [videoPhase_error]
      dsimp only
      rw [samplePhase_error]
      exact he
    · rw [videoPhase_broke]
      dsimp only
      rw [samplePhase_broke]
      exact hb
    · rw [videoPhase_last_control_time]
      dsimp only
      rw [samplePhase_last_control_time]
      rw [hlc, hkn]
    · rw [videoPhase_control_times]
      dsimp only
      rw [samplePhase_control_times]
      rw [hct, hkn]
    · rw [videoPhase_error]
      dsimp only
      rw [samplePhase_error]
      exact he
    · rw [videoPhase_broke]
      dsimp only
      rw [samplePhase_broke]
      exact hb

/-! Projection lemmas for `teardown`. -/

theorem teardown_time (cfg : SimConfig) (st : SimState) :
    (teardown cfg st).time = st.time := by
  simp only [teardown]
  repeat' split
  all_goals rfl

theorem teardown_steps (cfg : SimConfig) (st : SimState) :
    (teardown cfg st).steps = st.steps := by
  simp only [teardown]
  repeat' split
  all_goals rfl

theorem teardown_error (cfg : SimConfig) (st : SimState) :
    (teardown cfg st).error = st.error := by
  simp only [teardown]
  repeat' split
  all_goals rfl

theorem teardown_broke (cfg : SimConfig) (st : SimState) :
    (teardown cfg st).broke = st.broke := by
  simp only [teardown]
  repeat' split
  all_goals rfl

theorem teardown_control_times (cfg : SimConfig) (st : SimState) :
    (teardown cfg st).control_times = st.control_times := by
  simp only [teardown]
  repeat' split
  all_goals rfl

theorem teardown_frames (cfg : SimConfig) (st : SimState) :
    (teardown cfg st).frames = st.frames := by
  simp only [teardown]
  repeat' split
  all_goals rfl

theorem teardown_viewer_opened (cfg : SimConfig) (st : SimState) :
    (teardown cfg st).viewer_opened = st.viewer_opened := by
  simp only [teardown]
  repeat' split
  all_goals rfl

theorem teardown_video_opened (cfg : SimConfig) (st : SimState) :
    (teardown cfg st).video_opened = st.video_opened := by
  simp only [teardown]
  repeat' split
  all_goals rfl

/-- `teardown` appends the final unconditional sample at the current
clock when sampling is on. -/
theorem teardown_sample_times (cfg : SimConfig) (st : SimState) (s : ℚ)
    (hss : cfg.sample_step = some s) :
    (teardown cfg st).sample_times = st.sample_times ++ [st.time] := by
  simp only [teardown, hss]
  repeat' split
  all_goals rfl

/-- `teardown` releases the viewer exactly when the source condition
`(not headless or record_settings is not None) and not offscreen_render`
holds. -/
theorem teardown_viewer_closes (cfg : SimConfig) (st : SimState) :
    (teardown cfg st).viewer_closes =
      st.viewer_closes +
        (if ((!cfg.headless || cfg.record_settings.isSome) && !cfg.offscreen_render) = true
         then 1 else 0) := by
  simp only [teardown]
  by_cases hcond : ((!cfg.headless || cfg.record_settings.isSome) && !cfg.offscreen_render) = true
  · rw [if_pos hcond, if_pos hcond]
    repeat' split
    all_goals rfl
  · rw [if_neg hcond, if_neg hcond]
    simp only [Nat.add_zero]
    repeat' split
    all_goals rfl

/-- `teardown` releases the video writer exactly when recording. -/
theorem teardown_video_releases (cfg : SimConfig) (st : SimState) :
    (teardown cfg st).video_releases =
      st.video_releases + (if cfg.record_settings.isSome then 1 else 0) := by
  simp only [teardown]
  rcases hrs : cfg.record_settings with _ | rs
  · simp only [hrs, Option.isSome_none, Bool.false_eq_true, if_false, Nat.add_zero]
    repeat' split
    all_goals rfl
  · simp only [hrs, Option.isSome_some, if_true]
    repeat' split
    all_goals rfl

/-- The loop guard under the tick invariant, for finite
`simulation_time`. -/
theorem loopCond_eval (cfg : SimConfig) (h tEnd : ℚ) (k : ℕ) (st : SimState)
    (hT : cfg.simulation_time = some tEnd) (hh0 : 0 < h) (hT0 : 0 ≤ tEnd)
    (ht : st.time = (k : ℚ) * h) :
    loopCond cfg st = decide (k ≤ (⌊tEnd / h⌋).toNat) := by
  unfold loopCond
  rw [hT, ht]
  exact decide_eq_decide.2 (tick_le_iff h tEnd hh0 hT0 k)

/-- Closed form of the control dispatch times of a full clean run when
`control_step` is the `n`-fold timestep: control fires at `0` and then
exactly at the window starts `c, 2c, ...` up to the last tick. -/
theorem control_times_closed (cfg : SimConfig) (c h tEnd : ℚ) (n : ℕ)
    (hok : SetupOk cfg)
    (hcs : cfg.control_step = some c) (hts : cfg.simulation_timestep = h)
    (hh0 : 0 < h) (hn : 0 < n) (hc : c = (n : ℚ) * h)
    (hT : cfg.simulation_time = some tEnd) (hT0 : 0 ≤ tEnd)
    (hcl : ∀ i, cfg.closed_at i = false) :
    (simulate_scene cfg).control_times =
      List.map (fun j : ℕ => (j : ℚ) * c)
        (List.range ((⌊tEnd / h⌋).toNat / n + 1))
    ∧ (simulate_scene cfg).error = none
    ∧ (simulate_scene cfg).time = (((⌊tEnd / h⌋).toNat + 1 : ℕ) : ℚ) * h
    ∧ (simulate_scene cfg).steps = (⌊tEnd / h⌋).toNat + 1
    ∧ (simulate_scene cfg).broke = false := by
  obtain ⟨rc, herr0, hpre⟩ := pre_loop_eval cfg c hok hcs
  set M := (⌊tEnd / h⌋).toNat with hM
  have hInv0 : ControlInv c h n 0 (initial_sample_control cfg (setup cfg)) := by
    rw [hpre]
    refine ⟨?_, ?_, ?_, ?_, ?_, ?_⟩ <;> simp [initState, List.range_succ]
  have hfin := runLoop_inv cfg (ControlInv c h n) M
    (fun k st hInv => loopCond_eval cfg h tEnd k st hT hh0 hT0 hInv.1)
    (fun k st _ hInv => ControlInv_step cfg c h n k st hcs hts hh0 hn hc hcl hInv)
    cfg.fuel 0 (initial_sample_control cfg (setup cfg)) hInv0
    (by
      unfold SimConfig.fuel
      rw [hT, hts])
  obtain ⟨htime, hsteps, herr, hbrk, hanchor, hctimes⟩ := hfin
  have hsim : simulate_scene cfg =
      teardown cfg (runLoop cfg cfg.fuel (initial_sample_control cfg (setup cfg))) := by
    simp only [simulate_scene]
    rw [herr0]
    simp only [Option.isSome_none, Bool.false_eq_true, if_false]
    rw [herr]
    simp
  rw [hsim]
  set stf := runLoop cfg cfg.fuel (initial_sample_control cfg (setup cfg)) with hstf
  refine ⟨?_, ?_, ?_, ?_, ?_⟩
  · rw [teardown_control_times, hctimes]
    simp
  · rw [teardown_error]
    exact herr
  · rw [teardown_time]
    exact htime
  · rw [teardown_steps]
    exact hsteps
  · rw [teardown_broke]
    exact hbrk

/-! ### The sample cadence invariant (sample step = n · timestep) -/

/-- Loop invariant for the sample cadence when
`sample_step = n * simulation_timestep`. -/
def SampleInv (s h : ℚ) (n k : ℕ) (st : SimState) : Prop :=
  st.time = (k : ℚ) * h
  ∧ st.steps = k
  ∧ st.error = none
  ∧ st.broke = false
  ∧ st.last_sample_time = (((k - 1) / n : ℕ) : ℚ) * s
  ∧ st.sample_times = List.map (fun j : ℕ => (j : ℚ) * s) (List.range ((k - 1) / n + 1))

/-- The loop body preserves `SampleInv` (for any `control_step`
value). -/
theorem SampleInv_step (cfg : SimConfig) (c s h : ℚ) (n k : ℕ) (st : SimState)
    (hcs : cfg.control_step = some c) (hss : cfg.sample_step = some s)
    (hts : cfg.simulation_timestep = h)
    (hh0 : 0 < h) (hn : 0 < n) (hs : s = (n : ℚ) * h)
    (hcl : ∀ i, cfg.closed_at i = false)
    (hInv : SampleInv s h n k st) :
    SampleInv s h n (k + 1) (loopBody cfg st)
      ∧ (loopBody cfg st).error = none ∧ (loopBody cfg st).broke = false := by
  obtain ⟨ht, hstp, he, hb, hls, hsmp⟩ := hInv
  rw [loopBody_clean cfg c st hcs (hcl st.steps)]
  rw [hss]
  have ht1 : (controlPhase c st).time = (k : ℚ) * h := by
    rw [controlPhase_time, ht]
  have hls1 : (controlPhase c st).last_sample_time = (((k - 1) / n : ℕ) : ℚ) * s := by
    rw [controlPhase_last_sample_time, hls]
  rw [samplePhase_eval s h n k (controlPhase c st) hh0 hn hs ht1 hls1]
  have hidx := window_index_succ n k
  unfold SampleInv
  by_cases hf : 1 ≤ k ∧ n ∣ k
  · rw [if_pos hf]
    rw [if_pos hf] at hidx
    have hkn : k / n = (k - 1) / n + 1 := by simpa using hidx
    have hdivmul : ((k / n : ℕ) : ℚ) * s = (k : ℚ) * h := by
      obtain ⟨j, hj⟩ := hf.2
      rw [hs, hj, Nat.mul_div_cancel_left _ hn]
      push_cast
      ring
    refine ⟨⟨?_, ?_, ?_, ?_, ?_, ?_⟩, ?_, ?_⟩
    · rw [videoPhase_time]
      dsimp only
      rw [ht, hts]
      push_cast
      ring
    · rw [videoPhase_steps]
      dsimp only
      rw [hstp]
    · rw [videoPhase_error]
      dsimp only
      rw [controlPhase_error]
      exact he
    · rw [videoPhase_broke]
      dsimp only
      rw [controlPhase_broke]
      exact hb
    · rw [videoPhase_last_sample_time]
      dsimp only
      rw [hidx, hkn]
    · rw [videoPhase_sample_times]
      dsimp only
      have helem : ((k : ℚ)) * h = (((k - 1) / n + 1 : ℕ) : ℚ) * s := by
        rw [show ((k - 1) / n + 1) = k / n from hkn.symm, hdivmul]
      rw [controlPhase_sample_times, hsmp, hidx, helem]
      simp [List.range_succ]
    · rw [videoPhase_error]
      dsimp only
      rw [controlPhase_error]
      exact he
    · rw [videoPhase_broke]
      dsimp only
      rw [controlPhase_broke]
      exact hb
  · rw [if_neg hf]
    rw [if_neg hf] at hidx
    have hkn : (k + 1 - 1) / n = (k - 1) / n := by simpa using hidx
    refine ⟨⟨?_, ?_, ?_, ?_, ?_, ?_⟩, ?_, ?_⟩
    · rw [videoPhase_time]
      dsimp only
      rw [ht, hts]
      push_cast
      ring
    · rw [videoPhase_steps]
      dsimp only
      rw [hstp]
    · rw [videoPhase_error]
      dsimp only
      rw [controlPhase_error]
      exact he
    · rw [videoPhase_broke]
      dsimp only
      rw [controlPhase_broke]
      exact hb
    · rw [videoPhase_last_sample_time]
      dsimp only
      rw [controlPhase_last_sample_time, hls, hkn]
    · rw [videoPhase_sample_times]
      dsimp only
      rw [controlPhase_sample_times, hsmp, hkn]
    · rw [videoPhase_error]
      dsimp only
      rw [controlPhase_error]
      exact he
    · rw [videoPhase_broke]
      dsimp only
      rw [controlPhase_broke]
      exact hb

/-- Closed form of the sample timestamps of a full clean run when
`sample_step` is the `n`-fold timestep: the initial sample, one sample
at the start of each sample window reached by the ticks, and the final
unconditional sample taken after the loop. -/
theorem sample_times_closed (cfg : SimConfig) (c s h tEnd : ℚ) (n : ℕ)
    (hok : SetupOk cfg)
    (hcs : cfg.control_step = some c) (hss : cfg.sample_step = some s)
    (hts : cfg.simulation_timestep = h)
    (hh0 : 0 < h) (hn : 0 < n) (hs : s = (n : ℚ) * h)
    (hT : cfg.simulation_time = some tEnd) (hT0 : 0 ≤ tEnd)
    (hcl : ∀ i, cfg.closed_at i = false) :
    (simulate_scene cfg).sample_times =
      List.map (fun j : ℕ => (j : ℚ) * s)
        (List.range ((⌊tEnd / h⌋).toNat / n + 1))
        ++ [(((⌊tEnd / h⌋).toNat + 1 : ℕ) : ℚ) * h]
    ∧ (simulate_scene cfg).error = none := by
  obtain ⟨rc, herr0, hpre⟩ := pre_loop_eval cfg c hok hcs
  set M := (⌊tEnd / h⌋).toNat with hM
  have hInv0 : SampleInv s h n 0 (initial_sample_control cfg (setup cfg)) := by
    rw [hpre]
    refine ⟨?_, ?_, ?_, ?_, ?_, ?_⟩ <;> simp [initState, hss, List.range_succ]
  have hfin := runLoop_inv cfg (SampleInv s h n) M
    (fun k st hInv => loopCond_eval cfg h tEnd k st hT hh0 hT0 hInv.1)
    (fun k st _ hInv => SampleInv_step cfg c s h n k st hcs hss hts hh0 hn hs hcl hInv)
    cfg.fuel 0 (initial_sample_control cfg (setup cfg)) hInv0
    (by simp only [SimConfig.fuel, hT, hts])
  obtain ⟨htime, hsteps, herr, hbrk, hanchor, hstimes⟩ := hfin
  have hsim : simulate_scene cfg =
      teardown cfg (runLoop cfg cfg.fuel (initial_sample_control cfg (setup cfg))) := by
    simp only [simulate_scene]
    rw [herr0]
    simp only [Option.isSome_none, Bool.false_eq_true, if_false]
    rw [herr]
    simp
  rw [hsim]
  set stf := runLoop cfg cfg.fuel (initial_sample_control cfg (setup cfg)) with hstf
  refine ⟨?_, ?_⟩
  · rw [teardown_sample_times cfg stf s hss, hstimes, htime]
    simp
  · rw [teardown_error]
    exact herr

/-- Truncation toward zero agrees with the floor on nonnegative
rationals. -/
theorem truncQ_eq_floor (q : ℚ) (hq : 0 ≤ q) : truncQ q = ⌊q⌋ := by
  rw [truncQ, Rat.floor_def]
  exact Int.tdiv_eq_ediv (Rat.num_nonneg.2 hq) (Int.natCast_nonneg _)

/-! ### Claim C1 -/

/-- Claim C1 (amended): in a run that passes setup, is never cancelled
by the viewer, has a finite nonnegative simulation time, and whose
control step is a positive integer multiple `n · h` of the physics
timestep `h`, the run raises nothing and control is dispatched exactly
once at each time `j * control_step ≤ simulation_time` — one dispatch
at t = 0 before the loop and one at each later control window start —
and at no other time.  (The unamended claim, quantified over arbitrary
tick sizes, is refuted by `claim_C1_counterexample`: when the timestep
does not divide the control step, dispatches happen at the first tick
at or after each window start instead of the window start itself, and
windows that contain no tick are skipped.) -/
theorem claim_C1 (cfg : SimConfig) (c h tEnd : ℚ) (n : ℕ)
    (hok : SetupOk cfg)
    (hcs : cfg.control_step = some c) (hts : cfg.simulation_timestep = h)
    (hh0 : 0 < h) (hn : 0 < n) (hc : c = (n : ℚ) * h)
    (hT : cfg.simulation_time = some tEnd) (hT0 : 0 ≤ tEnd)
    (hcl : ∀ i, cfg.closed_at i = false) :
    (simulate_scene cfg).error = none
    ∧ (simulate_scene cfg).control_times.Nodup
    ∧ (simulate_scene cfg).control_times.head? = some 0
    ∧ ∀ q : ℚ, q ∈ (simulate_scene cfg).control_times
        ↔ ∃ j : ℕ, q = (j : ℚ) * c ∧ q ≤ tEnd := by
  obtain ⟨hct, herr, -, -, -⟩ :=
    control_times_closed cfg c h tEnd n hok hcs hts hh0 hn hc hT hT0 hcl
  set M := (⌊tEnd / h⌋).toNat with hM
  have hnQ : (0 : ℚ) < n := by exact_mod_cast hn
  have hcpos : 0 < c := by
    rw [hc]
    exact mul_pos hnQ hh0
  refine ⟨herr, ?_, ?_, ?_⟩
  · rw [hct]
    refine List.Nodup.map ?_ (List.nodup_range _)
    intro a b hab
    have hab2 : (a : ℚ) = b := mul_right_cancel₀ (ne_of_gt hcpos) hab
    exact_mod_cast hab2
  · rw [hct]
    simp [List.range_succ_eq_map]
  · intro q
    rw [hct, List.mem_map]
    constructor
    · rintro ⟨j, hjmem, rfl⟩
      rw [List.mem_range] at hjmem
      refine ⟨j, rfl, ?_⟩
      have hjM : j * n ≤ M := (Nat.le_div_iff_mul_le hn).1 (by omega)
      have hle : ((j * n : ℕ) : ℚ) * h ≤ tEnd :=
        (tick_le_iff h tEnd hh0 hT0 (j * n)).2 (by rw [← hM]; exact hjM)
      calc (j : ℚ) * c = ((j * n : ℕ) : ℚ) * h := by
            rw [hc]
            push_cast
            ring
        _ ≤ tEnd := hle
    · rintro ⟨j, rfl, hle⟩
      refine ⟨j, ?_, rfl⟩
      rw [List.mem_range]
      have hle2 : ((j * n : ℕ) : ℚ) * h ≤ tEnd := by
        calc ((j * n : ℕ) : ℚ) * h = (j : ℚ) * c := by
              rw [hc]
              push_cast
              ring
          _ ≤ tEnd := hle
      have hjM : j * n ≤ M := by
        have h2 := (tick_le_iff h tEnd hh0 hT0 (j * n)).1 hle2
        rw [← hM] at h2
        exact h2
      have h3 := (Nat.le_div_iff_mul_le hn).2 hjM
      omega

/-- A concrete clean run for the C1 witness: timestep 1, control step
2 = 2 · 1, simulation time 5, headless, no recording. -/
def cfgW1 : SimConfig where
  headless := true
  record_settings := none
  control_step := some 2
  sample_step := none
  simulation_time := some 5
  simulation_timestep := 1
  viewer_can_record := true
  viewer_name := "CustomMujocoViewer"
  closed_at := fun _ => false
  camera_image := fun _ => []
  framebuffer_image := fun _ => []

/-- Witness for `claim_C1` at `cfgW1`: the hypotheses hold and control
fires at time 2 = 1 · control_step ≤ 5. -/
theorem claim_C1_witness :
    (simulate_scene cfgW1).error = none
    ∧ (simulate_scene cfgW1).control_times.head? = some 0
    ∧ (2 : ℚ) ∈ (simulate_scene cfgW1).control_times := by
  obtain ⟨he, hnd, hhd, hmem⟩ := claim_C1 cfgW1 2 1 5 2
    (by simp [SetupOk, cfgW1])
    rfl rfl (by norm_num) (by norm_num) (by norm_num) rfl (by norm_num)
    (fun i => rfl)
  exact ⟨he, hhd, (hmem 2).2 ⟨1, by norm_num, by norm_num⟩⟩

/-- The C1 counterexample run: timestep 1, control step 3/10,
simulation time 2, headless, no recording. -/
def cfgC1 : SimConfig where
  headless := true
  record_settings := none
  control_step := some (3/10)
  sample_step := none
  simulation_time := some 2
  simulation_timestep := 1
  viewer_can_record := true
  viewer_name := "CustomMujocoViewer"
  closed_at := fun _ => false
  camera_image := fun _ => []
  framebuffer_image := fun _ => []

/-- Counterexample to claim C1 as stated: with timestep 1 and control
step 3/10, control fires at times 0, 1, 2 — so it fires at time 1,
which is not a multiple of 3/10, and it does not fire at time
3/10 = 1 · control_step even though 3/10 ≤ 2. -/
theorem claim_C1_counterexample :
    (simulate_scene cfgC1).control_times = [0, 1, 2]
    ∧ (3 : ℚ) / 10 = ((1 : ℕ) : ℚ) * (3 / 10)
    ∧ (3 : ℚ) / 10 ≤ 2
    ∧ (3 : ℚ) / 10 ∉ (simulate_scene cfgC1).control_times
    ∧ (1 : ℚ) ∈ (simulate_scene cfgC1).control_times := by
  have h0 : ⌊(2 : ℚ) / 1⌋ = 2 := by norm_num
  have h1 : ⌊(1 : ℚ) / (3/10)⌋ = 3 := by norm_num [Int.floor_eq_iff]
  have h2 : ⌊(2 : ℚ) / (3/10)⌋ = 6 := by norm_num [Int.floor_eq_iff]
  have hfuel : cfgC1.fuel = 2 + 1 := by
    simp [SimConfig.fuel, cfgC1, h0]
  have hrun : (simulate_scene cfgC1).control_times = [0, 1, 2] := by
    simp only [simulate_scene, hfuel]
    norm_num [cfgC1, setup, initial_sample_control, runLoop, loopBody, loopCond,
      controlPhase, samplePhase, videoPhase, renderClosed,
      SimConfig.offscreen_render, SimConfig.video_step, initState, teardown, h1, h2]
  refine ⟨hrun, by norm_num, by norm_num, ?_, ?_⟩
  · rw [hrun]
    norm_num
  · rw [hrun]
    norm_num

/-! ### Claim C2 -/

/-- Claim C2 (amended): in a run that passes setup, is never cancelled
by the viewer, has a finite nonnegative simulation time, a set
`control_step`, and a `sample_step` that is a positive integer
multiple `n · h` of the physics timestep `h`, the returned list holds
exactly `⌊simulation_time / sample_step⌋ + 2` entries (initial,
periodic, and the final unconditional sample) with non-decreasing
timestamps.  (The unamended claim, quantified over arbitrary tick
sizes, is refuted by `claim_C2_counterexample`: sample windows that
contain no tick are skipped, so the count can fall short of the
formula.) -/
theorem claim_C2 (cfg : SimConfig) (c s h tEnd : ℚ) (n : ℕ)
    (hok : SetupOk cfg)
    (hcs : cfg.control_step = some c) (hss : cfg.sample_step = some s)
    (hts : cfg.simulation_timestep = h)
    (hh0 : 0 < h) (hn : 0 < n) (hs : s = (n : ℚ) * h)
    (hT : cfg.simulation_time = some tEnd) (hT0 : 0 ≤ tEnd)
    (hcl : ∀ i, cfg.closed_at i = false) :
    (simulate_scene cfg).error = none
    ∧ (simulate_scene cfg).sample_times.length = (⌊tEnd / s⌋).toNat + 2
    ∧ (simulate_scene cfg).sample_times.Sorted (· ≤ ·) := by
  obtain ⟨hst, herr⟩ :=
    sample_times_closed cfg c s h tEnd n hok hcs hss hts hh0 hn hs hT hT0 hcl
  set M := (⌊tEnd / h⌋).toNat with hM
  have hdiv : (⌊tEnd / s⌋).toNat = M / n := by
    rw [hs, div_mul_eq_div_div_swap, Int.floor_toNat, Nat.floor_div_nat,
      ← Int.floor_toNat, hM]
  have hspos : 0 < s := by
    rw [hs]
    exact mul_pos (by exact_mod_cast hn) hh0
  refine ⟨herr, ?_, ?_⟩
  · rw [hst, hdiv]
    simp
  · rw [hst]
    unfold List.Sorted
    rw [List.pairwise_append]
    refine ⟨?_, ?_, ?_⟩
    · rw [List.pairwise_map]
      refine List.Pairwise.imp ?_ (List.pairwise_lt_range _)
      intro a b hab
      have hcast : (a : ℚ) ≤ b := by exact_mod_cast le_of_lt hab
      exact mul_le_mul_of_nonneg_right hcast (le_of_lt hspos)
    · simp
    · intro a ha b hb
      simp only [List.mem_singleton] at hb
      subst hb
      rw [List.mem_map] at ha
      obtain ⟨j, hj, rfl⟩ := ha
      rw [List.mem_range] at hj
      have hjn : j * n ≤ M := (Nat.le_div_iff_mul_le hn).1 (by omega)
      have hrw : ((j : ℚ)) * s = ((j * n : ℕ) : ℚ) * h := by
        rw [hs]
        push_cast
        ring
      rw [hrw]
      have hcast : ((j * n : ℕ) : ℚ) ≤ ((M + 1 : ℕ) : ℚ) := by
        exact_mod_cast Nat.le_succ_of_le hjn
      exact mul_le_mul_of_nonneg_right hcast (le_of_lt hh0)

/-- A concrete clean run for the C2 witness: timestep 1, control step
1, sample step 2 = 2 · 1, simulation time 5. -/
def cfgW2 : SimConfig where
  headless := true
  record_settings := none
  control_step := some 1
  sample_step := some 2
  simulation_time := some 5
  simulation_timestep := 1
  viewer_can_record := true
  viewer_name := "CustomMujocoViewer"
  closed_at := fun _ => false
  camera_image := fun _ => []
  framebuffer_image := fun _ => []

/-- Witness for `claim_C2` at `cfgW2`: ⌊5 / 2⌋ + 2 = 4 samples with
non-decreasing timestamps. -/
theorem claim_C2_witness :
    (simulate_scene cfgW2).error = none
    ∧ (simulate_scene cfgW2).sample_times.length = 4
    ∧ (simulate_scene cfgW2).sample_times.Sorted (· ≤ ·) := by
  obtain ⟨he, hlen, hsort⟩ := claim_C2 cfgW2 1 2 1 5 2
    (by simp [SetupOk, cfgW2])
    rfl rfl rfl (by norm_num) (by norm_num) (by norm_num) rfl (by norm_num)
    (fun i => rfl)
  refine ⟨he, ?_, hsort⟩
  rw [hlen]
  have hfl : ⌊(5 : ℚ) / 2⌋ = 2 := by norm_num [Int.floor_eq_iff]
  rw [hfl]
  rfl

/-- The C2 counterexample run: timestep 2/5, control step 2/5, sample
step 1/2, simulation time 1. -/
def cfgC2 : SimConfig where
  headless := true
  record_settings := none
  control_step := some (2/5)
  sample_step := some (1/2)
  simulation_time := some 1
  simulation_timestep := 2/5
  viewer_can_record := true
  viewer_name := "CustomMujocoViewer"
  closed_at := fun _ => false
  camera_image := fun _ => []
  framebuffer_image := fun _ => []

/-- Counterexample to claim C2 as stated: with timestep 2/5 and sample
step 1/2, the run records samples at 0, 4/5 and 6/5 only — 3 entries,
not the claimed ⌊1 / (1/2)⌋ + 2 = 4, because the sample window
starting at 1/2 contains no tick and is skipped. -/
theorem claim_C2_counterexample :
    (simulate_scene cfgC2).sample_times = [0, 4/5, 6/5]
    ∧ (simulate_scene cfgC2).sample_times.length = 3
    ∧ (⌊(1 : ℚ) / (1/2)⌋).toNat + 2 = 4 := by
  have h0 : ⌊(5 : ℚ) / 2⌋ = 2 := by norm_num [Int.floor_eq_iff]
  have h1 : ⌊(2 : ℚ)/5 / (2/5)⌋ = 1 := by norm_num [Int.floor_eq_iff]
  have h2 : ⌊(4 : ℚ)/5 / (2/5)⌋ = 2 := by norm_num [Int.floor_eq_iff]
  have ht1 : truncQ ((4 : ℚ)/5 / (1/2)) = 1 := by
    rw [truncQ_eq_floor _ (by norm_num)]
    norm_num [Int.floor_eq_iff]
  have hfuel : cfgC2.fuel = 2 + 1 := by
    norm_num [SimConfig.fuel, cfgC2, h0]
    rfl
  have hrun : (simulate_scene cfgC2).sample_times = [0, 4/5, 6/5] := by
    simp only [simulate_scene, hfuel]
    norm_num [cfgC2, setup, initial_sample_control, runLoop, loopBody, loopCond,
      controlPhase, samplePhase, videoPhase, renderClosed,
      SimConfig.offscreen_render, SimConfig.video_step, initState, teardown,
      h1, h2, ht1]
  refine ⟨hrun, ?_, ?_⟩
  · rw [hrun]
    rfl
  · have hfl : ⌊(1 : ℚ) / (1/2)⌋ = 2 := by norm_num [Int.floor_eq_iff]
    rw [hfl]
    rfl

/-! ### Claim C6 -/

/-- The concrete configuration of claim C6:
`simulation_timestep = 0.01`, `control_step = 1/60`,
`sample_step = 1/5`, `simulation_time = 2`, headless, no recording. -/
def cfgC6 : SimConfig where
  headless := true
  record_settings := none
  control_step := some (1/60)
  sample_step := some (1/5)
  simulation_time := some 2
  simulation_timestep := 1/100
  viewer_can_record := true
  viewer_name := "CustomMujocoViewer"
  closed_at := fun _ => false
  camera_image := fun _ => []
  framebuffer_image := fun _ => []

/-- Claim C6 (amended): with `simulation_timestep = 0.01`,
`control_step = 1/60`, `sample_step = 1/5` and `simulation_time = 2`,
the run records samples at t ∈ {0, 0.2, 0.4, …, 2.0} (the initial
sample and ten periodic samples) plus one final unconditional sample
taken after the loop at clock 2.01 — 12 recorded entries in total,
not 13. -/
theorem claim_C6 :
    (simulate_scene cfgC6).error = none
    ∧ (simulate_scene cfgC6).sample_times
        = [0, 1/5, 2/5, 3/5, 4/5, 1, 6/5, 7/5, 8/5, 9/5, 2, 201/100]
    ∧ (simulate_scene cfgC6).sample_times.length = 12 := by
  obtain ⟨hst, herr⟩ := sample_times_closed cfgC6 (1/60) (1/5) (1/100) 2 20
    (by simp [SetupOk, cfgC6])
    rfl rfl rfl (by norm_num) (by norm_num) (by norm_num) rfl (by norm_num)
    (fun i => rfl)
  have hM : (⌊(2 : ℚ) / (1/100)⌋).toNat = 200 := by
    norm_num [Int.floor_eq_iff]
    rfl
  rw [hM] at hst
  have hst2 : (simulate_scene cfgC6).sample_times
      = [0, 1/5, 2/5, 3/5, 4/5, 1, 6/5, 7/5, 8/5, 9/5, 2, 201/100] := by
    rw [hst]
    norm_num [List.range_succ]
  refine ⟨herr, hst2, ?_⟩
  rw [hst2]
  rfl

/-- Counterexample to claim C6 as stated: the run yields 12 recorded
`SimulationState` entries, not 13. -/
theorem claim_C6_counterexample :
    (simulate_scene cfgC6).sample_times.length = 12
    ∧ (simulate_scene cfgC6).sample_times.length ≠ 13 := by
  obtain ⟨hst, herr⟩ := sample_times_closed cfgC6 (1/60) (1/5) (1/100) 2 20
    (by simp [SetupOk, cfgC6])
    rfl rfl rfl (by norm_num) (by norm_num) (by norm_num) rfl (by norm_num)
    (fun i => rfl)
  have hM : (⌊(2 : ℚ) / (1/100)⌋).toNat = 200 := by
    norm_num [Int.floor_eq_iff]
    rfl
  rw [hM] at hst
  have hlen : (simulate_scene cfgC6).sample_times.length = 12 := by
    rw [hst]
    rfl
  exact ⟨hlen, by rw [hlen]; norm_num⟩

/-! ### Claim C3 -/

/-- Claim C3 (confirmed): requesting recording in windowed mode with a
viewer type whose `can_record` is false raises a `ValueError` naming
the viewer type before any physics step, before any sample and before
any frame — the run yields zero samples. -/
theorem claim_C3 (cfg : SimConfig) (rs : RecordSettings)
    (hrs : cfg.record_settings = some rs)
    (hhl : cfg.headless = false)
    (hcr : cfg.viewer_can_record = false) :
    (simulate_scene cfg).error =
      some (.valueError ("Selected Viewer " ++ cfg.viewer_name
        ++ " has no functionality to record."))
    ∧ (simulate_scene cfg).steps = 0
    ∧ (simulate_scene cfg).sample_times = []
    ∧ (simulate_scene cfg).frames = [] := by
  have hsetup : (setup cfg).error =
      some (.valueError ("Selected Viewer " ++ cfg.viewer_name
        ++ " has no functionality to record."))
      ∧ (setup cfg).steps = 0 ∧ (setup cfg).sample_times = []
      ∧ (setup cfg).frames = [] := by
    refine ⟨?_, ?_, ?_, ?_⟩ <;>
      simp [setup, SimConfig.offscreen_render, hrs, hhl, hcr, initState]
  have hsim : simulate_scene cfg = setup cfg := by
    simp only [simulate_scene]
    rw [if_pos (by rw [hsetup.1]; rfl)]
  rw [hsim]
  exact hsetup

/-- A concrete windowed recording run with a non-recording viewer, for
the C3 witness. -/
def cfgW3 : SimConfig where
  headless := false
  record_settings := some { video_directory := "videos" }
  control_step := some 1
  sample_step := some 1
  simulation_time := some 5
  simulation_timestep := 1
  viewer_can_record := false
  viewer_name := "NativeMujocoViewer"
  closed_at := fun _ => false
  camera_image := fun _ => []
  framebuffer_image := fun _ => []

/-- Witness for `claim_C3` at `cfgW3`. -/
theorem claim_C3_witness :
    (simulate_scene cfgW3).error =
      some (.valueError
        ("Selected Viewer NativeMujocoViewer has no functionality to record."))
    ∧ (simulate_scene cfgW3).steps = 0
    ∧ (simulate_scene cfgW3).sample_times = [] := by
  obtain ⟨he, hs, hsmp, hfr⟩ :=
    claim_C3 cfgW3 { video_directory := "videos" } rfl rfl rfl
  exact ⟨he, hs, hsmp⟩

/-! ### Claim C9 -/

/-- Claim C9 (confirmed): the initial control dispatch is guarded by
`control_step is not None` but the in-loop cadence check is not; a run
with `control_step = None` that enters the main loop raises
`TypeError` in its first iteration, before any physics step, instead
of skipping control. -/
theorem claim_C9 (cfg : SimConfig) (tEnd : ℚ)
    (hok : SetupOk cfg)
    (hcs : cfg.control_step = none)
    (hT : cfg.simulation_time = some tEnd) (hT0 : 0 ≤ tEnd) :
    (simulate_scene cfg).error = some .typeError
    ∧ (simulate_scene cfg).steps = 0
    ∧ (simulate_scene cfg).control_times = [] := by
  obtain ⟨rc, hsetup⟩ := setup_eval cfg hok
  have herr0 : (setup cfg).error = none := by
    rw [hsetup]
    simp [initState]
  set st0 := initial_sample_control cfg (setup cfg) with hst0
  have h0 : st0.time = 0 ∧ st0.steps = 0 ∧ st0.error = none
      ∧ st0.control_times = [] := by
    rw [hst0, hsetup]
    rcases hss : cfg.sample_step with _ | s <;>
      simp [initial_sample_control, hss, hcs, initState]
  have hbody : loopBody cfg st0 = { st0 with error := some .typeError } := by
    simp [loopBody, hcs]
  have hcond : loopCond cfg st0 = true := by
    simp [loopCond, hT, h0.1, hT0]
  have hrun : runLoop cfg cfg.fuel st0 = { st0 with error := some .typeError } := by
    have hf : cfg.fuel = (⌊tEnd / cfg.simulation_timestep⌋).toNat + 1 := by
      simp [SimConfig.fuel, hT]
    rw [hf, runLoop_succ, hcond, if_pos rfl, hbody]
    simp
  have hsim : simulate_scene cfg = { st0 with error := some .typeError } := by
    simp only [simulate_scene]
    rw [herr0]
    simp only [Option.isSome_none, Bool.false_eq_true, if_false]
    rw [← hst0, hrun]
    simp
  rw [hsim]
  exact ⟨rfl, h0.2.1, h0.2.2.2⟩

/-- A concrete headless run with `control_step = None`, for the C9
witness. -/
def cfgW9 : SimConfig where
  headless := true
  record_settings := none
  control_step := none
  sample_step := some 1
  simulation_time := some 5
  simulation_timestep := 1
  viewer_can_record := true
  viewer_name := "CustomMujocoViewer"
  closed_at := fun _ => false
  camera_image := fun _ => []
  framebuffer_image := fun _ => []

/-- Witness for `claim_C9` at `cfgW9`. -/
theorem claim_C9_witness :
    (simulate_scene cfgW9).error = some .typeError
    ∧ (simulate_scene cfgW9).steps = 0 :=
  have h := claim_C9 cfgW9 5 (by simp [SetupOk, cfgW9]) rfl rfl (by norm_num)
  ⟨h.1, h.2.1⟩

/-! ### Claim C10 -/

theorem loopBody_rec_camera (cfg : SimConfig) (st : SimState) :
    (loopBody cfg st).rec_camera = st.rec_camera := by
  rcases hcs : cfg.control_step with _ | c
  · simp [loopBody, hcs]
  · simp only [loopBody, hcs]
    split
    · dsimp only
      rw [samplePhase_rec_camera, controlPhase_rec_camera]
    · rw [videoPhase_rec_camera]
      dsimp only
      rw [samplePhase_rec_camera, controlPhase_rec_camera]

theorem runLoop_rec_camera (cfg : SimConfig) (fuel : ℕ) (st : SimState) :
    (runLoop cfg fuel st).rec_camera = st.rec_camera := by
  induction fuel generalizing st with
  | zero => rfl
  | succ f ih =>
    rw [runLoop_succ]
    split
    · split
      · exact loopBody_rec_camera cfg st
      · rw [ih]
        exact loopBody_rec_camera cfg st
    · rfl

theorem initial_sample_control_rec_camera (cfg : SimConfig) (st : SimState) :
    (initial_sample_control cfg st).rec_camera = st.rec_camera := by
  rcases hss : cfg.sample_step with _ | s <;>
    rcases hcs : cfg.control_step with _ | c <;>
      simp [initial_sample_control, hss, hcs]

theorem teardown_rec_camera (cfg : SimConfig) (st : SimState) :
    (teardown cfg st).rec_camera = st.rec_camera := by
  simp only [teardown]
  repeat' split
  all_goals rfl

/-- The recording camera recorded by a run is the one chosen during
setup. -/
theorem simulate_scene_rec_camera (cfg : SimConfig) :
    (simulate_scene cfg).rec_camera = (setup cfg).rec_camera := by
  simp only [simulate_scene]
  split
  · rfl
  · split
    · rw [runLoop_rec_camera, initial_sample_control_rec_camera]
    · rw [teardown_rec_camera, runLoop_rec_camera, initial_sample_control_rec_camera]

/-- Claim C10 (confirmed): in offscreen-record mode, a `None`
`camera_id` defaults the recording camera to camera id 1, and a `None`
`camera_type` defaults its type to the free camera type. -/
theorem claim_C10 (cfg : SimConfig) (rs : RecordSettings)
    (hhl : cfg.headless = true)
    (hrs : cfg.record_settings = some rs)
    (hid : rs.camera_id = none)
    (hty : rs.camera_type = none) :
    (simulate_scene cfg).rec_camera = some (1, MjtCamera.free)
    ∧ record_camera_id rs = 1
    ∧ record_camera_type rs = .ok .free := by
  have hrc : record_camera rs = .ok (1, MjtCamera.free) := by
    simp [record_camera, record_camera_type, record_camera_id, hid, hty]
  have hcam : (setup cfg).rec_camera = some (1, MjtCamera.free) := by
    by_cases hfps : rs.fps = 0 <;>
      by_cases hcr : cfg.viewer_can_record = true <;>
        simp [setup, SimConfig.offscreen_render, hrs, hhl, hrc, hfps, hcr, initState]
  refine ⟨?_, ?_, ?_⟩
  · rw [simulate_scene_rec_camera, hcam]
  · simp [record_camera_id, hid]
  · simp [record_camera_type, hty]

/-- A concrete offscreen-record run with both camera fields `None`,
for the C10 witness. -/
def cfgW10 : SimConfig where
  headless := true
  record_settings := some { video_directory := "videos" }
  control_step := some 1
  sample_step := none
  simulation_time := some 1
  simulation_timestep := 1
  viewer_can_record := true
  viewer_name := "CustomMujocoViewer"
  closed_at := fun _ => false
  camera_image := fun _ => [[[0, 0, 0]]]
  framebuffer_image := fun _ => []

/-- Witness for `claim_C10` at `cfgW10`. -/
theorem claim_C10_witness :
    (simulate_scene cfgW10).rec_camera = some (1, MjtCamera.free) :=
  (claim_C10 cfgW10 { video_directory := "videos" } rfl rfl rfl rfl).1

/-! ### Claim C8 -/

/-- Claim C8 (confirmed): the `Callback` enum has exactly the nine
members START, RENDER_START, PRE_STEP, PRE_CONTROL, RENDER,
POST_CONTROL, POST_STEP, RENDER_END, END; `PRE_RENDER` and
`POST_RENDER` are not members, so the windowed viewer backend update
routine, which accesses both, raises `AttributeError` on every call
that reaches it. -/
theorem claim_C8 :
    Callback.members.Nodup
    ∧ (∀ cb : Callback, cb ∈ Callback.members)
    ∧ Callback.members.length = 9
    ∧ Callback.attr ("PRE_RENDER") = none
    ∧ Callback.attr ("POST_RENDER") = none
    ∧ ∀ callbacks : Callback → List Unit,
        backend_update callbacks = .error .attributeError := by
  refine ⟨by decide, ?_, by decide, by decide, by decide, fun callbacks => rfl⟩
  intro cb
  cases cb <;> decide

/-- Witness for `claim_C8`: the update routine errors on the empty
registry, and RENDER is a member. -/
theorem claim_C8_witness :
    backend_update (fun _ => []) = .error .attributeError
    ∧ Callback.RENDER ∈ Callback.members := by
  obtain ⟨hnd, hmem, hlen, hpre, hpost, hupd⟩ := claim_C8
  exact ⟨hupd _, hmem _⟩

/-! ### Claim C4 -/

/-- One loop iteration whose render call reports the closed status in
windowed mode: the body runs control, sample and the physics step,
then leaves through `break`, skipping the video frame capture. -/
theorem loopBody_break (cfg : SimConfig) (c : ℚ) (st : SimState)
    (hcs : cfg.control_step = some c) (hhl : cfg.headless = false)
    (hcl : cfg.closed_at st.steps = true) :
    loopBody cfg st =
      { samplePhase cfg.sample_step (controlPhase c st) with
        time := st.time + cfg.simulation_timestep
        steps := st.steps + 1
        broke := true } := by
  simp only [loopBody, hcs]
  have hrc : ∀ st2 : SimState, renderClosed cfg st.time st.steps st2 = true := by
    intro st2
    simp [renderClosed, hhl, hcl]
  rw [hrc, if_pos rfl]

/-- Loop invariant for a windowed run up to the cancellation tick. -/
def BreakInv (h : ℚ) (k : ℕ) (st : SimState) : Prop :=
  st.time = (k : ℚ) * h
  ∧ st.steps = k
  ∧ st.error = none
  ∧ st.broke = false
  ∧ st.viewer_closes = 0
  ∧ st.video_releases = 0

/-- The loop body preserves `BreakInv` while the render call does not
report the closed status. -/
theorem BreakInv_step (cfg : SimConfig) (c h : ℚ) (k : ℕ) (st : SimState)
    (hcs : cfg.control_step = some c) (hts : cfg.simulation_timestep = h)
    (hclk : cfg.closed_at k = false)
    (hInv : BreakInv h k st) :
    BreakInv h (k + 1) (loopBody cfg st)
      ∧ (loopBody cfg st).error = none ∧ (loopBody cfg st).broke = false := by
  obtain ⟨ht, hstp, he, hb, hvc, hvr⟩ := hInv
  have hclk2 : cfg.closed_at st.steps = false := by
    rw [hstp]
    exact hclk
  rw [loopBody_clean cfg c st hcs hclk2]
  refine ⟨⟨?_, ?_, ?_, ?_, ?_, ?_⟩, ?_, ?_⟩
  · rw [videoPhase_time]
    dsimp only
    rw [ht, hts]
    push_cast
    ring
  · rw [videoPhase_steps]
    dsimp only
    rw [hstp]
  · rw [videoPhase_error]
    dsimp only
    rw [samplePhase_error, controlPhase_error]
    exact he
  · rw [videoPhase_broke]
    dsimp only
    rw [samplePhase_broke, controlPhase_broke]
    exact hb
  · rw [videoPhase_viewer_closes]
    dsimp only
    rw [samplePhase_viewer_closes, controlPhase_viewer_closes]
    exact hvc
  · rw [videoPhase_video_releases]
    dsimp only
    rw [samplePhase_video_releases, controlPhase_video_releases]
    exact hvr
  · rw [videoPhase_error]
    dsimp only
    rw [samplePhase_error, controlPhase_error]
    exact he
  · rw [videoPhase_broke]
    dsimp only
    rw [samplePhase_broke, controlPhase_broke]
    exact hb

/-- Claim C4 (confirmed): a windowed run whose viewer render call
reports the closed status at tick `N` (and not earlier) stops stepping
after tick `N`'s step, raises nothing, releases the viewer exactly
once, and the last entry of its result sequence is the final
unconditional sample taken at shutdown (at the post-break clock). -/
theorem claim_C4 (cfg : SimConfig) (c s h tEnd : ℚ) (N : ℕ)
    (hok : SetupOk cfg)
    (hhl : cfg.headless = false)
    (hcs : cfg.control_step = some c)
    (hss : cfg.sample_step = some s)
    (hts : cfg.simulation_timestep = h) (hh0 : 0 < h)
    (hT : cfg.simulation_time = some tEnd) (hT0 : 0 ≤ tEnd)
    (hN : N ≤ (⌊tEnd / h⌋).toNat)
    (hclN : cfg.closed_at N = true)
    (hcl : ∀ k, k < N → cfg.closed_at k = false) :
    (simulate_scene cfg).error = none
    ∧ (simulate_scene cfg).steps = N + 1
    ∧ (simulate_scene cfg).viewer_closes = 1
    ∧ (simulate_scene cfg).sample_times ≠ []
    ∧ (simulate_scene cfg).sample_times.getLast? =
        some (((N + 1 : ℕ) : ℚ) * h) := by
  obtain ⟨rc, herr0, hpre⟩ := pre_loop_eval cfg c hok hcs
  set M := (⌊tEnd / h⌋).toNat with hM
  have hInv0 : BreakInv h 0 (initial_sample_control cfg (setup cfg)) := by
    rw [hpre]
    refine ⟨?_, ?_, ?_, ?_, ?_, ?_⟩ <;> simp [initState]
  have hbrk := runLoop_break cfg (BreakInv h) N M hN
    (fun k st hInv => loopCond_eval cfg h tEnd k st hT hh0 hT0 hInv.1)
    (fun k st hk hInv => BreakInv_step cfg c h k st hcs hts (hcl k hk) hInv)
    (fun st => st.time = ((N + 1 : ℕ) : ℚ) * h ∧ st.steps = N + 1
      ∧ st.error = none ∧ st.viewer_closes = 0 ∧ st.video_releases = 0)
    (fun st hInv => by
      obtain ⟨ht, hstp, he, hb, hvc, hvr⟩ := hInv
      have hclN2 : cfg.closed_at st.steps = true := by
        rw [hstp]
        exact hclN
      rw [loopBody_break cfg c st hcs hhl hclN2]
      refine ⟨⟨?_, ?_, ?_, ?_, ?_⟩, ?_, ?_⟩
      · dsimp only
        rw [ht, hts]
        push_cast
        ring
      · dsimp only
        rw [hstp]
      · dsimp only
        rw [samplePhase_error, controlPhase_error]
        exact he
      · dsimp only
        rw [samplePhase_viewer_closes, controlPhase_viewer_closes]
        exact hvc
      · dsimp only
        rw [samplePhase_video_releases, controlPhase_video_releases]
        exact hvr
      · dsimp only
        rw [samplePhase_error, controlPhase_error]
        exact he
      · rfl)
    cfg.fuel 0 (initial_sample_control cfg (setup cfg)) hInv0 (Nat.zero_le N)
    (by simp only [SimConfig.fuel, hT, hts])
  obtain ⟨htime, hsteps, herr, hvc, hvr⟩ := hbrk
  have hsim : simulate_scene cfg =
      teardown cfg (runLoop cfg cfg.fuel (initial_sample_control cfg (setup cfg))) := by
    simp only [simulate_scene]
    rw [herr0]
    simp only [Option.isSome_none, Bool.false_eq_true, if_false]
    rw [herr]
    simp
  rw [hsim]
  set stf := runLoop cfg cfg.fuel (initial_sample_control cfg (setup cfg)) with hstf
  have hcondclose :
      ((!cfg.headless || cfg.record_settings.isSome) && !cfg.offscreen_render) = true := by
    simp [hhl, SimConfig.offscreen_render]
  refine ⟨?_, ?_, ?_, ?_, ?_⟩
  · rw [teardown_error]
    exact herr
  · rw [teardown_steps]
    exact hsteps
  · rw [teardown_viewer_closes, hvc, hcondclose]
    rfl
  · rw [teardown_sample_times cfg stf s hss]
    simp
  · rw [teardown_sample_times cfg stf s hss, htime]
    simp

/-- A concrete windowed run cancelled at tick 1, for the C4 witness. -/
def cfgW4 : SimConfig where
  headless := false
  record_settings := none
  control_step := some 1
  sample_step := some 1
  simulation_time := some 5
  simulation_timestep := 1
  viewer_can_record := true
  viewer_name := "NativeMujocoViewer"
  closed_at := fun k => k == 1
  camera_image := fun _ => []
  framebuffer_image := fun _ => []

/-- Witness for `claim_C4` at `cfgW4`: cancelled at tick 1, the run
does 2 steps, closes the viewer once and ends with the final sample at
time 2. -/
theorem claim_C4_witness :
    (simulate_scene cfgW4).error = none
    ∧ (simulate_scene cfgW4).steps = 2
    ∧ (simulate_scene cfgW4).viewer_closes = 1
    ∧ (simulate_scene cfgW4).sample_times.getLast? = some 2 := by
  obtain ⟨he, hs, hvc, hne, hlast⟩ := claim_C4 cfgW4 1 1 1 5 1
    (by simp [SetupOk, cfgW4])
    rfl rfl rfl rfl (by norm_num) rfl (by norm_num)
    (by
      have h5 : (⌊(5 : ℚ) / 1⌋).toNat = 5 := by
        norm_num
        rfl
      rw [h5]
      omega)
    rfl
    (by decide)
  refine ⟨he, hs, hvc, ?_⟩
  rw [hlast]
  norm_num

/-! ### Claim C5 -/

theorem loopBody_viewer_closes (cfg : SimConfig) (st : SimState) :
    (loopBody cfg st).viewer_closes = st.viewer_closes := by
  rcases hcs : cfg.control_step with _ | c
  · simp [loopBody, hcs]
  · simp only [loopBody, hcs]
    split
    · dsimp only
      rw [samplePhase_viewer_closes, controlPhase_viewer_closes]
    · rw [videoPhase_viewer_closes]
      dsimp only
      rw [samplePhase_viewer_closes, controlPhase_viewer_closes]

theorem loopBody_viewer_opened (cfg : SimConfig) (st : SimState) :
    (loopBody cfg st).viewer_opened = st.viewer_opened := by
  rcases hcs : cfg.control_step with _ | c
  · simp [loopBody, hcs]
  · simp only [loopBody, hcs]
    split
    · dsimp only
      rw [samplePhase_viewer_opened, controlPhase_viewer_opened]
    · rw [videoPhase_viewer_opened]
      dsimp only
      rw [samplePhase_viewer_opened, controlPhase_viewer_opened]

theorem loopBody_video_opened (cfg : SimConfig) (st : SimState) :
    (loopBody cfg st).video_opened = st.video_opened := by
  rcases hcs : cfg.control_step with _ | c
  · simp [loopBody, hcs]
  · simp only [loopBody, hcs]
    split
    · dsimp only
      rw [samplePhase_video_opened, controlPhase_video_opened]
    · rw [videoPhase_video_opened]
      dsimp only
      rw [samplePhase_video_opened, controlPhase_video_opened]

theorem loopBody_video_releases (cfg : SimConfig) (st : SimState) :
    (loopBody cfg st).video_releases = st.video_releases := by
  rcases hcs : cfg.control_step with _ | c
  · simp [loopBody, hcs]
  · simp only [loopBody, hcs]
    split
    · dsimp only
      rw [samplePhase_video_releases, controlPhase_video_releases]
    · rw [videoPhase_video_releases]
      dsimp only
      rw [samplePhase_video_releases, controlPhase_video_releases]

theorem runLoop_viewer_closes (cfg : SimConfig) (fuel : ℕ) (st : SimState) :
    (runLoop cfg fuel st).viewer_closes = st.viewer_closes := by
  induction fuel generalizing st with
  | zero => rfl
  | succ f ih =>
    rw [runLoop_succ]
    split
    · split
      · exact loopBody_viewer_closes cfg st
      · rw [ih]
        exact loopBody_viewer_closes cfg st
    · rfl

theorem runLoop_viewer_opened (cfg : SimConfig) (fuel : ℕ) (st : SimState) :
    (runLoop cfg fuel st).viewer_opened = st.viewer_opened := by
  induction fuel generalizing st with
  | zero => rfl
  | succ f ih =>
    rw [runLoop_succ]
    split
    · split
      · exact loopBody_viewer_opened cfg st
      · rw [ih]
        exact loopBody_viewer_opened cfg st
    · rfl

theorem runLoop_video_opened (cfg : SimConfig) (fuel : ℕ) (st : SimState) :
    (runLoop cfg fuel st).video_opened = st.video_opened := by
  induction fuel generalizing st with
  | zero => rfl
  | succ f ih =>
    rw [runLoop_succ]
    split
    · split
      · exact loopBody_video_opened cfg st
      · rw [ih]
        exact loopBody_video_opened cfg st
    · rfl

theorem runLoop_video_releases (cfg : SimConfig) (fuel : ℕ) (st : SimState) :
    (runLoop cfg fuel st).video_releases = st.video_releases := by
  induction fuel generalizing st with
  | zero => rfl
  | succ f ih =>
    rw [runLoop_succ]
    split
    · split
      · exact loopBody_video_releases cfg st
      · rw [ih]
        exact loopBody_video_releases cfg st
    · rfl

theorem initial_sample_control_viewer_closes (cfg : SimConfig) (st : SimState) :
    (initial_sample_control cfg st).viewer_closes = st.viewer_closes := by
  rcases hss : cfg.sample_step with _ | s <;>
    rcases hcs : cfg.control_step with _ | c <;>
      simp [initial_sample_control, hss, hcs]

theorem initial_sample_control_viewer_opened (cfg : SimConfig) (st : SimState) :
    (initial_sample_control cfg st).viewer_opened = st.viewer_opened := by
  rcases hss : cfg.sample_step with _ | s <;>
    rcases hcs : cfg.control_step with _ | c <;>
      simp [initial_sample_control, hss, hcs]

theorem initial_sample_control_video_opened (cfg : SimConfig) (st : SimState) :
    (initial_sample_control cfg st).video_opened = st.video_opened := by
  rcases hss : cfg.sample_step with _ | s <;>
    rcases hcs : cfg.control_step with _ | c <;>
      simp [initial_sample_control, hss, hcs]

theorem initial_sample_control_video_releases (cfg : SimConfig) (st : SimState) :
    (initial_sample_control cfg st).video_releases = st.video_releases := by
  rcases hss : cfg.sample_step with _ | s <;>
    rcases hcs : cfg.control_step with _ | c <;>
      simp [initial_sample_control, hss, hcs]

/-- `setup` opens the viewer window exactly in windowed mode, on every
branch. -/
theorem setup_viewer_opened (cfg : SimConfig) :
    (setup cfg).viewer_opened = !cfg.headless := by
  simp only [setup]
  repeat' split
  all_goals rfl

theorem setup_viewer_closes (cfg : SimConfig) :
    (setup cfg).viewer_closes = 0 := by
  simp only [setup]
  repeat' split
  all_goals rfl

theorem setup_video_releases (cfg : SimConfig) :
    (setup cfg).video_releases = 0 := by
  simp only [setup]
  repeat' split
  all_goals rfl

/-- A video writer is only opened when recording is on. -/
theorem setup_video_opened_record (cfg : SimConfig)
    (hvo : (setup cfg).video_opened = true) :
    cfg.record_settings.isSome = true := by
  simp only [setup] at hvo
  repeat' split at hvo
  all_goals simp_all [initState]

/-- The viewer-window bookkeeping of a run is the one from `setup`. -/
theorem simulate_scene_viewer_opened (cfg : SimConfig) :
    (simulate_scene cfg).viewer_opened = (setup cfg).viewer_opened := by
  simp only [simulate_scene]
  split
  · rfl
  · split
    · rw [runLoop_viewer_opened, initial_sample_control_viewer_opened]
    · rw [teardown_viewer_opened, runLoop_viewer_opened,
        initial_sample_control_viewer_opened]

/-- The video-writer bookkeeping of a run is the one from `setup`. -/
theorem simulate_scene_video_opened (cfg : SimConfig) :
    (simulate_scene cfg).video_opened = (setup cfg).video_opened := by
  simp only [simulate_scene]
  split
  · rfl
  · split
    · rw [runLoop_video_opened, initial_sample_control_video_opened]
    · rw [teardown_video_opened, runLoop_video_opened,
        initial_sample_control_video_opened]

/-- Claim C5 (amended): on every exit path that does not leave through
a Python exception — normal completion and viewer-closed cancellation
alike — an acquired viewer window is closed exactly once and an
acquired video writer is released exactly once.  (The unamended "every
exit path" claim is refuted by `claim_C5_counterexample`: the
configuration-error exit raised by the `can_record` check occurs after
the viewer window was created in windowed mode, propagates with no
`try/finally`, and leaves the window open.) -/
theorem claim_C5 (cfg : SimConfig)
    (hne : (simulate_scene cfg).error = none) :
    ((simulate_scene cfg).viewer_opened = true →
      (simulate_scene cfg).viewer_closes = 1)
    ∧ ((simulate_scene cfg).video_opened = true →
      (simulate_scene cfg).video_releases = 1) := by
  by_cases h1 : (setup cfg).error.isSome = true
  · have hsim : simulate_scene cfg = setup cfg := by
      simp only [simulate_scene]
      rw [if_pos h1]
    rw [hsim] at hne
    rw [hne] at h1
    simp at h1
  · set stf := runLoop cfg cfg.fuel (initial_sample_control cfg (setup cfg)) with hstf
    by_cases h2 : stf.error.isSome = true
    · have hsim : simulate_scene cfg = stf := by
        simp only [simulate_scene]
        rw [if_neg h1, ← hstf, if_pos h2]
      rw [hsim] at hne
      rw [hne] at h2
      simp at h2
    · have hsim : simulate_scene cfg = teardown cfg stf := by
        simp only [simulate_scene]
        rw [if_neg h1, ← hstf, if_neg h2]
      have hvc0 : stf.viewer_closes = 0 := by
        rw [hstf, runLoop_viewer_closes, initial_sample_control_viewer_closes,
          setup_viewer_closes]
      have hvr0 : stf.video_releases = 0 := by
        rw [hstf, runLoop_video_releases, initial_sample_control_video_releases,
          setup_video_releases]
      constructor
      · intro hvopen
        rw [hsim] at hvopen ⊢
        rw [teardown_viewer_opened] at hvopen
        have hopen2 : (setup cfg).viewer_opened = true := by
          rw [hstf, runLoop_viewer_opened, initial_sample_control_viewer_opened]
            at hvopen
          exact hvopen
        rw [setup_viewer_opened] at hopen2
        have hhl : cfg.headless = false := by
          rcases hb : cfg.headless
          · rfl
          · rw [hb] at hopen2
            simp at hopen2
        rw [teardown_viewer_closes, hvc0]
        have hcond : ((!cfg.headless || cfg.record_settings.isSome)
            && !cfg.offscreen_render) = true := by
          simp [hhl, SimConfig.offscreen_render]
        rw [hcond]
        simp
      · intro hvopen
        rw [hsim] at hvopen ⊢
        rw [teardown_video_opened] at hvopen
        have hopen2 : (setup cfg).video_opened = true := by
          rw [hstf, runLoop_video_opened, initial_sample_control_video_opened]
            at hvopen
          exact hvopen
        have hrs := setup_video_opened_record cfg hopen2
        rw [teardown_video_releases, hvr0, hrs]
        simp

/-- A concrete clean windowed run for the C5 witness. -/
def cfgW5 : SimConfig where
  headless := false
  record_settings := none
  control_step := some 1
  sample_step := none
  simulation_time := some 1
  simulation_timestep := 1
  viewer_can_record := true
  viewer_name := "NativeMujocoViewer"
  closed_at := fun _ => false
  camera_image := fun _ => []
  framebuffer_image := fun _ => []

/-- Witness for `claim_C5` at `cfgW5`: the windowed run completes
without raising, its viewer window was opened and is closed exactly
once. -/
theorem claim_C5_witness :
    (simulate_scene cfgW5).error = none
    ∧ (simulate_scene cfgW5).viewer_opened = true
    ∧ (simulate_scene cfgW5).viewer_closes = 1 := by
  have herr := (control_times_closed cfgW5 1 1 1 1
    (by simp [SetupOk, cfgW5])
    rfl rfl (by norm_num) (by norm_num) (by norm_num) rfl (by norm_num)
    (fun i => rfl)).2.1
  have hvo : (simulate_scene cfgW5).viewer_opened = true := by
    rw [simulate_scene_viewer_opened, setup_viewer_opened]
    simp [cfgW5]
  obtain ⟨hclose, hrel⟩ := claim_C5 cfgW5 herr
  exact ⟨herr, hvo, hclose hvo⟩

/-- The C5 counterexample run: windowed recording with a viewer type
that cannot record — the `can_record` check raises after the window
was opened. -/
def cfgC5 : SimConfig where
  headless := false
  record_settings := some { video_directory := "videos" }
  control_step := some 1
  sample_step := some 1
  simulation_time := some 5
  simulation_timestep := 1
  viewer_can_record := false
  viewer_name := "NativeMujocoViewer"
  closed_at := fun _ => false
  camera_image := fun _ => []
  framebuffer_image := fun _ => []

/-- Counterexample to claim C5 as stated: on the configuration-error
exit (`can_record` check) the viewer window was acquired but is never
closed. -/
theorem claim_C5_counterexample :
    (simulate_scene cfgC5).viewer_opened = true
    ∧ (simulate_scene cfgC5).viewer_closes = 0
    ∧ (simulate_scene cfgC5).error.isSome = true := by
  have h1 : (setup cfgC5).error.isSome = true := by
    simp [setup, SimConfig.offscreen_render, cfgC5, initState]
  have hsim : simulate_scene cfgC5 = setup cfgC5 := by
    simp only [simulate_scene]
    rw [if_pos h1]
  rw [hsim]
  refine ⟨?_, ?_, h1⟩ <;>
    simp [setup, SimConfig.offscreen_render, cfgC5, initState]

/-! ### Claim C7 -/

/-- The frame written at post-step time `t`: read from the offscreen
recording camera buffer in offscreen-record mode and from the
on-screen framebuffer otherwise, vertically flipped with the channel
order of every pixel reversed. -/
def frame_source (cfg : SimConfig) (t : ℚ) : Frame where
  from_offscreen_camera := cfg.offscreen_render
  image := flipud_reverse_channels
    (if cfg.offscreen_render then cfg.camera_image t else cfg.framebuffer_image t)

/-- Evaluation of `videoPhase` at pre-step tick `k` when the video
step is the `n`-fold timestep and the anchor sits at the current
window start. -/
theorem videoPhase_eval (cfg : SimConfig) (rs : RecordSettings) (h : ℚ)
    (n k : ℕ) (st : SimState)
    (hrs : cfg.record_settings = some rs)
    (hh0 : 0 < h) (hn : 0 < n) (hvs : cfg.video_step = (n : ℚ) * h)
    (hlv : st.last_video_time = (((k - 1) / n : ℕ) : ℚ) * ((n : ℚ) * h))
    (htime : st.time = ((k + 1 : ℕ) : ℚ) * h) :
    videoPhase cfg ((k : ℚ) * h) st =
      if 1 ≤ k ∧ n ∣ k then
        { st with
          last_video_time := ((k / n : ℕ) : ℚ) * ((n : ℚ) * h)
          frames := st.frames ++ [frame_source cfg (((k + 1 : ℕ) : ℚ) * h)] }
      else st := by
  simp only [videoPhase, hrs]
  rw [hvs, hlv, htime]
  by_cases hf : 1 ≤ k ∧ n ∣ k
  · rw [if_pos ((anchor_fire_iff h hh0 n k hn).2 hf), if_pos hf]
    have hfl : ((truncQ ((k : ℚ) * h / ((n : ℚ) * h)) : ℤ) : ℚ)
        = ((k / n : ℕ) : ℚ) := by
      rw [trunc_tick_div h (ne_of_gt hh0) n k hn hf.2]
      exact Int.cast_natCast _
    rw [hfl]
    rfl
  · rw [if_neg (fun hcond => hf ((anchor_fire_iff h hh0 n k hn).1 hcond)),
      if_neg hf]

/-- Loop invariant for the video cadence when the video step is the
`n`-fold timestep: one frame written at the first tick of each video
window, from the post-step image. -/
def VideoInv (cfg : SimConfig) (h : ℚ) (n k : ℕ) (st : SimState) : Prop :=
  st.time = (k : ℚ) * h
  ∧ st.steps = k
  ∧ st.error = none
  ∧ st.broke = false
  ∧ st.last_video_time = (((k - 1) / n : ℕ) : ℚ) * ((n : ℚ) * h)
  ∧ st.frames = List.map
      (fun j : ℕ => frame_source cfg ((((j + 1) * n + 1 : ℕ) : ℚ) * h))
      (List.range ((k - 1) / n))

/-- The loop body preserves `VideoInv`. -/
theorem VideoInv_step (cfg : SimConfig) (rs : RecordSettings) (c h : ℚ)
    (n k : ℕ) (st : SimState)
    (hcs : cfg.control_step = some c) (hts : cfg.simulation_timestep = h)
    (hh0 : 0 < h) (hn : 0 < n)
    (hrs : cfg.record_settings = some rs)
    (hvs : cfg.video_step = (n : ℚ) * h)
    (hcl : ∀ i, cfg.closed_at i = false)
    (hInv : VideoInv cfg h n k st) :
    VideoInv cfg h n (k + 1) (loopBody cfg st)
      ∧ (loopBody cfg st).error = none ∧ (loopBody cfg st).broke = false := by
  obtain ⟨ht, hstp, he, hb, hlv, hfr⟩ := hInv
  rw [loopBody_clean cfg c st hcs (hcl st.steps)]
  rw [ht, hts]
  have hlv3 : ({ samplePhase cfg.sample_step (controlPhase c st) with
      time := (k : ℚ) * h + h
      steps := st.steps + 1 } : SimState).last_video_time
      = (((k - 1) / n : ℕ) : ℚ) * ((n : ℚ) * h) := by
    dsimp only
    rw [samplePhase_last_video_time, controlPhase_last_video_time]
    exact hlv
  have htime3 : ({ samplePhase cfg.sample_step (controlPhase c st) with
      time := (k : ℚ) * h + h
      steps := st.steps + 1 } : SimState).time = ((k + 1 : ℕ) : ℚ) * h := by
    dsimp only
    push_cast
    ring
  rw [videoPhase_eval cfg rs h n k _ hrs hh0 hn hvs hlv3 htime3]
  have hidx := window_index_succ n k
  unfold VideoInv
  by_cases hf : 1 ≤ k ∧ n ∣ k
  · rw [if_pos hf]
    rw [if_pos hf] at hidx
    have hkn : k / n = (k - 1) / n + 1 := by simpa using hidx
    have hmul : ((k - 1) / n + 1) * n = k := by
      obtain ⟨j, hj⟩ := hf.2
      rw [← hkn, hj, Nat.mul_div_cancel_left _ hn, Nat.mul_comm]
    refine ⟨⟨?_, ?_, ?_, ?_, ?_, ?_⟩, ?_, ?_⟩
    · dsimp only
      push_cast
      ring
    · dsimp only
      rw [hstp]
    · dsimp only
      rw [samplePhase_error, controlPhase_error]
      exact he
    · dsimp only
      rw [samplePhase_broke, controlPhase_broke]
      exact hb
    · dsimp only
      rw [hidx, hkn]
    · dsimp only
      rw [samplePhase_frames, controlPhase_frames, hfr, hidx, List.range_succ,
        List.map_append]
      simp only [List.map_cons, List.map_nil]
      have helem : ((((k - 1) / n + 1) * n + 1 : ℕ) : ℚ) * h
          = ((k + 1 : ℕ) : ℚ) * h := by
        rw [hmul]
      rw [← helem]
    · dsimp only
      rw [samplePhase_error, controlPhase_error]
      exact he
    · dsimp only
      rw [samplePhase_broke, controlPhase_broke]
      exact hb
  · rw [if_neg hf]
    rw [if_neg hf] at hidx
    have hkn : (k + 1 - 1) / n = (k - 1) / n := by simpa using hidx
    refine ⟨⟨?_, ?_, ?_, ?_, ?_, ?_⟩, ?_, ?_⟩
    · dsimp only
      push_cast
      ring
    · dsimp only
      rw [hstp]
    · dsimp only
      rw [samplePhase_error, controlPhase_error]
      exact he
    · dsimp only
      rw [samplePhase_broke, controlPhase_broke]
      exact hb
    · dsimp only
      rw [samplePhase_last_video_time, controlPhase_last_video_time, hlv, hkn]
    · dsimp only
      rw [samplePhase_frames, controlPhase_frames, hfr, hkn]
    · dsimp only
      rw [samplePhase_error, controlPhase_error]
      exact he
    · dsimp only
      rw [samplePhase_broke, controlPhase_broke]
      exact hb

/-- Closed form of the video frames of a full clean recording run when
the video step is the `n`-fold timestep. -/
theorem frames_closed (cfg : SimConfig) (rs : RecordSettings) (c h tEnd : ℚ)
    (n : ℕ)
    (hok : SetupOk cfg)
    (hcs : cfg.control_step = some c) (hts : cfg.simulation_timestep = h)
    (hh0 : 0 < h) (hn : 0 < n)
    (hrs : cfg.record_settings = some rs)
    (hvs : cfg.video_step = (n : ℚ) * h)
    (hT : cfg.simulation_time = some tEnd) (hT0 : 0 ≤ tEnd)
    (hcl : ∀ i, cfg.closed_at i = false) :
    (simulate_scene cfg).frames =
      List.map (fun j : ℕ => frame_source cfg ((((j + 1) * n + 1 : ℕ) : ℚ) * h))
        (List.range ((⌊tEnd / h⌋).toNat / n))
    ∧ (simulate_scene cfg).error = none := by
  obtain ⟨rc, herr0, hpre⟩ := pre_loop_eval cfg c hok hcs
  set M := (⌊tEnd / h⌋).toNat with hM
  have hInv0 : VideoInv cfg h n 0 (initial_sample_control cfg (setup cfg)) := by
    rw [hpre]
    refine ⟨?_, ?_, ?_, ?_, ?_, ?_⟩ <;> simp [initState]
  have hfin := runLoop_inv cfg (VideoInv cfg h n) M
    (fun k st hInv => loopCond_eval cfg h tEnd k st hT hh0 hT0 hInv.1)
    (fun k st _ hInv =>
      VideoInv_step cfg rs c h n k st hcs hts hh0 hn hrs hvs hcl hInv)
    cfg.fuel 0 (initial_sample_control cfg (setup cfg)) hInv0
    (by simp only [SimConfig.fuel, hT, hts])
  obtain ⟨htime, hsteps, herr, hbrk, hanchor, hframes⟩ := hfin
  have hsim : simulate_scene cfg =
      teardown cfg (runLoop cfg cfg.fuel (initial_sample_control cfg (setup cfg))) := by
    simp only [simulate_scene]
    rw [herr0]
    simp only [Option.isSome_none, Bool.false_eq_true, if_false]
    rw [herr]
    simp
  rw [hsim]
  refine ⟨?_, ?_⟩
  · rw [teardown_frames, hframes]
    simp
  · rw [teardown_error]
    exact herr

/-- Claim C7 (amended): in a clean recording run whose video step is
the `n`-fold timestep, exactly one frame is appended at the first tick
of each video window; the frame source is the offscreen recording
camera buffer in offscreen-record mode and the on-screen framebuffer
in windowed-recording mode, read at the post-step time; and every
written frame is the vertical flip of its source with the channel
order of every pixel reversed (RGB sources are written in BGR order,
as the OpenCV encoder expects — not in RGB order as the claim
states; see `claim_C7_counterexample`). -/
theorem claim_C7 (cfg : SimConfig) (rs : RecordSettings) (c h tEnd : ℚ)
    (n : ℕ)
    (hok : SetupOk cfg)
    (hcs : cfg.control_step = some c) (hts : cfg.simulation_timestep = h)
    (hh0 : 0 < h) (hn : 0 < n)
    (hrs : cfg.record_settings = some rs)
    (hvs : cfg.video_step = (n : ℚ) * h)
    (hT : cfg.simulation_time = some tEnd) (hT0 : 0 ≤ tEnd)
    (hcl : ∀ i, cfg.closed_at i = false) :
    (simulate_scene cfg).error = none
    ∧ (simulate_scene cfg).frames =
        List.map (fun j : ℕ => frame_source cfg ((((j + 1) * n + 1 : ℕ) : ℚ) * h))
          (List.range ((⌊tEnd / h⌋).toNat / n))
    ∧ ∀ fr ∈ (simulate_scene cfg).frames,
        fr.from_offscreen_camera = cfg.offscreen_render
        ∧ ∃ t : ℚ, fr.image = flipud_reverse_channels
            (if cfg.offscreen_render then cfg.camera_image t
             else cfg.framebuffer_image t) := by
  obtain ⟨hfr, herr⟩ :=
    frames_closed cfg rs c h tEnd n hok hcs hts hh0 hn hrs hvs hT hT0 hcl
  refine ⟨herr, hfr, ?_⟩
  intro fr hmem
  rw [hfr, List.mem_map] at hmem
  obtain ⟨j, hj, rfl⟩ := hmem
  exact ⟨rfl, _, rfl⟩

/-- A concrete offscreen-record run for the C7 witness: fps 1,
timestep 1, simulation time 2. -/
def cfgW7 : SimConfig where
  headless := true
  record_settings := some { video_directory := "videos", fps := 1 }
  control_step := some 1
  sample_step := none
  simulation_time := some 2
  simulation_timestep := 1
  viewer_can_record := true
  viewer_name := "CustomMujocoViewer"
  closed_at := fun _ => false
  camera_image := fun _ => [[[5, 6, 7]]]
  framebuffer_image := fun _ => []

/-- Witness for `claim_C7` at `cfgW7`: two frames, both offscreen and
flipped-and-reversed camera reads. -/
theorem claim_C7_witness :
    (simulate_scene cfgW7).error = none
    ∧ (simulate_scene cfgW7).frames.length = 2 := by
  obtain ⟨herr, hfr, hall⟩ := claim_C7 cfgW7
    { video_directory := "videos", fps := 1 } 1 1 2 1
    (by
      refine ⟨fun hcontra => ?_, by simp [cfgW7], fun _ => ⟨(1, .free), rfl⟩⟩
      simp [cfgW7] at hcontra)
    rfl rfl (by norm_num) (by norm_num) rfl
    (by norm_num [SimConfig.video_step, cfgW7]) rfl (by norm_num)
    (fun i => rfl)
  refine ⟨herr, ?_⟩
  rw [hfr]
  have hM : (⌊(2 : ℚ) / 1⌋).toNat = 2 := by
    norm_num
    rfl
  rw [hM]
  rfl

/-- The C7 counterexample run: offscreen recording of a single-pixel
camera image with channel values (1, 2, 3). -/
def cfgC7 : SimConfig where
  headless := true
  record_settings := some { video_directory := "videos", fps := 1 }
  control_step := some 1
  sample_step := none
  simulation_time := some 1
  simulation_timestep := 1
  viewer_can_record := true
  viewer_name := "CustomMujocoViewer"
  closed_at := fun _ => false
  camera_image := fun _ => [[[1, 2, 3]]]
  framebuffer_image := fun _ => []

/-- Counterexample to claim C7 as stated: the camera buffer pixel
(1, 2, 3) is written as (3, 2, 1) — the channel order is reversed
(RGB to BGR), whereas a vertical flip alone (the claimed row-major
top-to-bottom RGB layout) would keep the single-row image (1, 2, 3)
unchanged. -/
theorem claim_C7_counterexample :
    (simulate_scene cfgC7).frames =
      [{ from_offscreen_camera := true, image := [[[3, 2, 1]]] }]
    ∧ ([[[3, 2, 1]]] : Image) ≠ [[[1, 2, 3]]]
    ∧ List.reverse ([[[1, 2, 3]]] : Image) = [[[1, 2, 3]]] := by
  obtain ⟨hfr, herr⟩ := frames_closed cfgC7
    { video_directory := "videos", fps := 1 } 1 1 1 1
    (by
      refine ⟨fun hcontra => ?_, by simp [cfgC7], fun _ => ⟨(1, .free), rfl⟩⟩
      simp [cfgC7] at hcontra)
    rfl rfl (by norm_num) (by norm_num) rfl
    (by norm_num [SimConfig.video_step, cfgC7]) rfl (by norm_num)
    (fun i => rfl)
  have hM : (⌊(1 : ℚ) / 1⌋).toNat = 1 := by
    norm_num
  rw [hM] at hfr
  refine ⟨?_, by decide, by decide⟩
  rw [hfr]
  norm_num [List.range_succ, frame_source, flipud_reverse_channels,
    SimConfig.offscreen_render, cfgC7]

end Revolve2
